import Mathlib

/-!
Verification development for the memory-group subsystem of the gds-nvidia-fs
driver (src/nvfs-mmap.c).  The C code is shallowly embedded: per-block
metadata, the embedded I/O descriptor and the memory group become Lean
structures; the state-machine functions become executable Lean functions that
mirror the control flow of the source line by line.  Kernel `BUG_ON`
assertions (which halt the machine, so nothing after them executes) are
modelled as an aborting `Option`/result outcome; `WARN_ON_ONCE` (which logs
and continues) is modelled as a boolean flag threaded through the state.

Numeric constants are taken from the repository's own test scaffolding
(src/tests/kunit/*.c), which fixes NVFS_BLOCK_SIZE = 4096, GPU_PAGE_SIZE =
65536, PAGE_SIZE = 4096, NVFS_MAX_SHADOW_PAGES_ORDER = 12,
NVFS_START_MAGIC and NVFS_MIN_BASE_INDEX.
-/

/-- 4 KiB I/O block size (`NVFS_BLOCK_SIZE`, tests fix it to 4096). -/
def NVFS_BLOCK_SIZE : Nat := 4096

/-- Block shift (`NVFS_BLOCK_SHIFT = 12`). -/
def NVFS_BLOCK_SHIFT : Nat := 12

/-- Accelerator (GPU) page size (`GPU_PAGE_SIZE = 65536`). -/
def GPU_PAGE_SIZE : Nat := 65536

/-- CPU page size assumed by the driver and its tests (4096). -/
def PAGE_SIZE : Nat := 4096

/-- Modelled from the spec: `KiB4`, one 4 KiB block ("page-size minus one
block" headroom check in `queue_blocks`); the defining header is not in the
excerpt, the tests and the spec fix the block granularity at 4096. -/
def KiB4 : Nat := 4096

/-- `NVFS_MAX_SHADOW_PAGES_ORDER = 12` (from src/tests/kunit/nvfs_mmap_kunit.c). -/
def NVFS_MAX_SHADOW_PAGES_ORDER : Nat := 12

/-- `NVFS_MAX_SHADOW_PAGES = 1 <<< 12 = 4096`. -/
def NVFS_MAX_SHADOW_PAGES : Nat := 4096

/-- Validity sentinel stored in every block-metadata entry (`NVFS_START_MAGIC`). -/
def NVFS_START_MAGIC : Nat := 0xabc0cba1abc2cba3

/-- Lowest region key handed out by the registry (`NVFS_MIN_BASE_INDEX`). -/
def NVFS_MIN_BASE_INDEX : Nat := 0x100000000

/-- Kernel error code `-EIO` as returned by the driver. -/
def cEIO : Int := -5

/-- Kernel error code `-ENOMEM`. -/
def cENOMEM : Int := -12

/-- Kernel error code `-EINVAL`. -/
def cEINVAL : Int := -22

/-- Kernel error code `-ERESTARTSYS` (interrupted operation marker). -/
def cERESTARTSYS : Int := -512

/-- Per-block I/O states, mirroring `enum nvfs_block_state`
(FREE, ALLOC, INIT, QUEUED, DMA_START, DONE, DMA_ERROR). -/
inductive NvfsIoState where
  | FREE
  | ALLOC
  | INIT
  | QUEUED
  | DMA_START
  | DONE
  | DMA_ERROR
deriving DecidableEq

/-- Direction of the in-flight operation (`nvfsio->op`). -/
inductive IoOp where
  | READ
  | WRITE
deriving DecidableEq

/-- Sparse metadata state published to the caller
(`enum nvfs_metastate`: NVFS_IO_META_CLEAN / NVFS_IO_META_SPARSE). -/
inductive NvfsMetastate where
  | META_CLEAN
  | META_SPARSE
deriving DecidableEq

/-- A backing allocation unit (`struct folio` as the driver uses it): its
`index` encodes the owning region key, `pfn_base` is the physical frame of
its first 4 KiB page (a 64 KiB folio is physically contiguous, so page `k`
of the folio has pfn `pfn_base + k`), `mapping` is the page-cache marking
(always none for shadow-buffer folios) and `nr_pages` its size in CPU pages. -/
structure NvfsFolio where
  id : Nat
  index : Nat
  pfn_base : Nat
  mapping : Option Nat
  nr_pages : Nat
deriving DecidableEq

/-- `folio_page(folio, k)`: the pfn of the k-th CPU page of a folio. -/
def folioPage (f : NvfsFolio) (k : Nat) : Nat := f.pfn_base + k

/-- One entry of the block-metadata array (`struct nvfs_io_metadata`). -/
structure NvfsMeta where
  nvfs_start_magic : Nat
  nvfs_state : NvfsIoState
  folio : Option NvfsFolio
  folio_offset : Nat
deriving DecidableEq

instance : Inhabited NvfsMeta := ⟨⟨0, NvfsIoState.FREE, none, 0⟩⟩

/-- The embedded single-flight I/O descriptor (`struct nvfs_io` fields used
by the mmap core: op, active block range, ret, length, check_sparse,
gpu_page_offset, cpuvaddr, fd_offset, metastate). -/
structure NvfsIo where
  op : IoOp
  nvfs_active_blocks_start : Nat
  nvfs_active_blocks_end : Nat
  ret : Int
  length : Nat
  check_sparse : Bool
  gpu_page_offset : Nat
  cpuvaddr : Nat
  fd_offset : Int
  metastate : NvfsMetastate
deriving DecidableEq

/-- A memory group (`struct nvfs_io_mgroup`): region key, reference count,
block/folio counts, backing folios, block metadata, DMA completion refcount
and the embedded I/O descriptor. -/
structure NvfsMgroup where
  base_index : Nat
  ref : Int
  dma_ref : Int
  nvfs_blocks_count : Nat
  nvfs_folios_count : Nat
  nvfs_folios : List (Option NvfsFolio)
  nvfs_metadata : List NvfsMeta
  nvfsio : NvfsIo
deriving DecidableEq

/-- One sparse-hole record `{start, npages}` (`sparse_ptr->hole[n]`). -/
structure NvfsHole where
  start : Int
  npages : Int
deriving DecidableEq

/-- The sparse metadata published to the caller-visible result area:
hole count, hole records and the file offset the operation began at. -/
structure NvfsSparse where
  nholes : Int
  holes : List NvfsHole
  start_fd_offset : Int
deriving DecidableEq

/-- Mutable state threaded through the `nvfs_mgroup_check_and_set` loop:
the metadata array, the descriptor's `check_sparse` flag, whether the
sparse buffer has been mapped (`sparse_ptr != NULL`), the hole records
written so far, the local counters `nholes`, `last_sparse_index`,
`sparse_read_bytes_limit` and `ret`, and whether any WARN_ON_ONCE fired. -/
structure CasLoopSt where
  mpages : List NvfsMeta
  check_sparse : Bool
  sparseMapped : Bool
  holes : List NvfsHole
  nholes : Int
  lastSparseIndex : Int
  sparseLimit : Int
  retAcc : Int
  warned : Bool
deriving DecidableEq

/-- State of the block the loop is looking at (`nvfs_mpages[i].nvfs_state`). -/
def CasLoopSt.stateAt (st : CasLoopSt) (i : Int) : NvfsIoState :=
  (st.mpages.getD i.toNat default).nvfs_state

/-- `hole[nholes].npages++`: bump the page count of the most recent hole
record (the C code always writes at index `nholes`, the last record). -/
def bumpLastHole : List NvfsHole → List NvfsHole
  | [] => []
  | [h] => [{ h with npages := h.npages + 1 }]
  | h :: t => h :: bumpLastHole t

/-- `nvfs_handle_sparse_read_region`: record block `i` as part of a sparse
hole.  Returns `none` on a BUG_ON abort, otherwise the function's int
result (a positive byte limit when the hole-record maximum is hit, else 0)
and the updated loop state.  `activeStart` is
`nvfsio->nvfs_active_blocks_start`; `maxHoles` is `NVFS_MAX_HOLE_REGIONS`,
whose numeric value lives in a header outside the excerpt and is therefore
kept as a parameter. -/
def nvfs_handle_sparse_read_region (activeStart maxHoles i : Int)
    (st : CasLoopSt) : Option (Int × CasLoopSt) :=
  if st.sparseMapped = false ∧ st.check_sparse = true then none
  else
    let st1 := if st.sparseMapped = false then
      { st with check_sparse := true, sparseMapped := true } else st
    if st1.lastSparseIndex < 0 ∨ st1.lastSparseIndex + 1 ≠ i then
      if st1.nholes + 1 ≥ maxHoles then
        some ((i - activeStart) * (NVFS_BLOCK_SIZE : Int),
              { st1 with lastSparseIndex := i })
      else
        let nh := st1.nholes + 1
        if nh ≥ maxHoles then none
        else
          some (0,
            { st1 with
              nholes := nh,
              holes := st1.holes ++ [⟨i - activeStart, 1⟩],
              lastSparseIndex := i })
    else
      some (0,
        { st1 with
          holes := bumpLastHole st1.holes,
          lastSparseIndex := i })

/-- `nvfs_handle_done_block_validation`: validation of one active-range
block during DONE reconciliation.  Returns `none` on BUG_ON abort,
otherwise the int result (positive sparse byte limit, `-EIO`, or 0) and
the updated state. -/
def nvfs_handle_done_block_validation (op : IoOp) (activeStart maxHoles : Int)
    (validate : Bool) (i last_done_block : Int)
    (st : CasLoopSt) : Option (Int × CasLoopSt) :=
  if validate ∧ st.stateAt i ≠ NvfsIoState.DMA_START then
    if i > last_done_block then
      if validate ∧ st.stateAt i ≠ NvfsIoState.QUEUED then
        some ( cEIO, { st with warned := true })
      else some (0, st)
    else
      if op = IoOp.READ then
        if st.sparseLimit ≠ 0 then some (0, { st with lastSparseIndex := i })
        else
          match nvfs_handle_sparse_read_region activeStart maxHoles i st with
          | none => none
          | some (r, st') => if r > 0 then some (r, st') else some (0, st')
      else some ( cEIO, st)
  else some (0, st)

/-- One iteration of the `nvfs_mgroup_check_and_set` loop at block `i`:
the `switch (state)` (each assertion arm), the DONE-case delegation, and
the final state-update step (skipped for out-of-active-range blocks in the
DONE case, and for active blocks when the process is exiting or the
operation was interrupted).  Returns `none` on BUG_ON abort. -/
def casStep (target : NvfsIoState) (validate : Bool) (op : IoOp)
    (activeStart activeEnd last_done maxHoles : Int) (retField : Int)
    (inInterrupt pfExiting : Bool) (i : Int) (st : CasLoopSt) :
    Option CasLoopSt :=
  let afterSwitch : Option (Bool × CasLoopSt) :=
    match target with
    | NvfsIoState.FREE =>
        some (false, if validate ∧ st.stateAt i ≠ NvfsIoState.INIT
          ∧ st.stateAt i ≠ NvfsIoState.ALLOC
          ∧ st.stateAt i ≠ NvfsIoState.DONE then
            { st with warned := true } else st)
    | NvfsIoState.ALLOC =>
        some (false, if validate ∧ st.stateAt i ≠ NvfsIoState.FREE then
            { st with warned := true } else st)
    | NvfsIoState.INIT =>
        some (false, if validate ∧ st.stateAt i ≠ NvfsIoState.ALLOC then
            { st with warned := true } else st)
    | NvfsIoState.QUEUED =>
        some (false, if validate ∧ st.stateAt i ≠ NvfsIoState.INIT
          ∧ st.stateAt i ≠ NvfsIoState.DONE then
            { st with warned := true } else st)
    | NvfsIoState.DMA_START =>
        some (false, if validate ∧ st.stateAt i ≠ NvfsIoState.QUEUED
          ∧ st.stateAt i ≠ NvfsIoState.DMA_START then
            { st with warned := true } else st)
    | NvfsIoState.DMA_ERROR =>
        some (false, if validate ∧ st.stateAt i ≠ NvfsIoState.QUEUED
          ∧ st.stateAt i ≠ NvfsIoState.DMA_START then
            { st with warned := true } else st)
    | NvfsIoState.DONE =>
        if activeStart ≤ i ∧ i ≤ activeEnd then
          match nvfs_handle_done_block_validation op activeStart maxHoles
              validate i last_done st with
          | none => none
          | some (result, st') =>
            if result > 0 then some (false, { st' with sparseLimit := result })
            else if result < 0 then some (false, { st' with retAcc := result })
            else some (false, st')
        else
          if validate ∧ st.stateAt i ≠ NvfsIoState.INIT then none
          else some (true, st)
  match afterSwitch with
  | none => none
  | some (skipped, st') =>
    if skipped then some st'
    else
      if target = NvfsIoState.DONE ∧ (activeStart ≤ i ∧ i ≤ activeEnd)
          ∧ ((¬inInterrupt ∧ pfExiting) ∨ retField = cERESTARTSYS) then
        some st'
      else
        let m' := { st'.mpages.getD i.toNat default with nvfs_state := target }
        some { st' with mpages := st'.mpages.set i.toNat m' }

/-- The `for (i = cur_block_num; i <= last_block_num; i++)` loop of
`nvfs_mgroup_check_and_set`, with the iteration count made explicit as
structural fuel (`fuel = last_block_num + 1 - cur_block_num`). -/
def casLoop (target : NvfsIoState) (validate : Bool) (op : IoOp)
    (activeStart activeEnd last_done maxHoles : Int) (retField : Int)
    (inInterrupt pfExiting : Bool) : Nat → Int → CasLoopSt → Option CasLoopSt
  | 0, _, st => some st
  | fuel + 1, i, st =>
    match casStep target validate op activeStart activeEnd last_done maxHoles
        retField inInterrupt pfExiting i st with
    | none => none
    | some st' =>
      casLoop target validate op activeStart activeEnd last_done maxHoles
        retField inInterrupt pfExiting fuel (i + 1) st'

/-- Result of `nvfs_mgroup_check_and_set`: the updated group, the sparse
metadata published to the caller (when the sparse buffer was mapped) and
whether any WARN_ON_ONCE fired.  An aborted run (BUG_ON) is `none` at the
call site. -/
structure CasOut where
  grp : NvfsMgroup
  sparse : Option NvfsSparse
  warned : Bool
deriving DecidableEq

/-- The `last_done_block` computation of `nvfs_mgroup_check_and_set`:
`done_blocks = DIV_ROUND_UP(nvfsio->ret, NVFS_BLOCK_SIZE)`; when fewer
blocks were done than issued the last done block is
`active_start + done_blocks - 1`, otherwise `active_end`.  In the source
`done_blocks` is computed at its declaration but only read inside the
`validate && state == DONE` branch after `BUG_ON(nvfsio->ret < 0)`, so it
is computed here from the then-nonnegative `ret`. -/
def casLastDone (g : NvfsMgroup) (target : NvfsIoState)
    (validate : Bool) : Int :=
  let nv := g.nvfsio
  let issued_blocks : Nat :=
    nv.nvfs_active_blocks_end - nv.nvfs_active_blocks_start + 1
  if validate ∧ target = NvfsIoState.DONE then
    let done_blocks : Nat :=
      (nv.ret.toNat + NVFS_BLOCK_SIZE - 1) / NVFS_BLOCK_SIZE
    if done_blocks < issued_blocks then
      (nv.nvfs_active_blocks_start : Int) + (done_blocks : Int) - 1
    else (nv.nvfs_active_blocks_end : Int)
  else 0

/-- The first block index of the `nvfs_mgroup_check_and_set` loop
(`cur_block_num`): 0 for a full-region INIT reset, the active-range start
otherwise. -/
def casCur (g : NvfsMgroup) (target : NvfsIoState) : Int :=
  if target = NvfsIoState.INIT then 0
  else (g.nvfsio.nvfs_active_blocks_start : Int)

/-- The last block index of the `nvfs_mgroup_check_and_set` loop
(`last_block_num`). -/
def casLast (g : NvfsMgroup) (target : NvfsIoState) : Int :=
  if target = NvfsIoState.INIT then (g.nvfs_blocks_count : Int) - 1
  else (g.nvfsio.nvfs_active_blocks_end : Int)

/-- The block loop of `nvfs_mgroup_check_and_set`, set up with the
group's descriptor: initial loop state (metadata, `check_sparse`, whether
the sparse buffer was mapped up front), bounds and `last_done_block`. -/
def casRun (g : NvfsMgroup) (target : NvfsIoState)
    (validate : Bool) (inInterrupt pfExiting : Bool) (maxHoles : Int) :
    Option CasLoopSt :=
  let nv := g.nvfsio
  let sparseMapped0 : Bool := validate ∧ target = NvfsIoState.DONE
    ∧ nv.op = IoOp.READ ∧ nv.check_sparse
  let st0 : CasLoopSt :=
    ⟨g.nvfs_metadata, nv.check_sparse, sparseMapped0, [], -1, -1, 0, 0, false⟩
  casLoop target validate nv.op (nv.nvfs_active_blocks_start : Int)
    (nv.nvfs_active_blocks_end : Int) (casLastDone g target validate)
    maxHoles nv.ret inInterrupt pfExiting
    (casLast g target + 1 - casCur g target).toNat (casCur g target) st0

/-- `nvfs_mgroup_check_and_set(mgroup, state, validate, update_nvfsio)`.
`inInterrupt` and `pfExiting` model the kernel environment reads
`in_interrupt()` and `current->flags & PF_EXITING`; `maxHoles` models the
`NVFS_MAX_HOLE_REGIONS` macro (defined in a header outside the excerpt).
Returns `none` when a BUG_ON aborts the kernel. -/
def nvfs_mgroup_check_and_set (g : NvfsMgroup) (target : NvfsIoState)
    (validate update_nvfsio : Bool) (inInterrupt pfExiting : Bool)
    (maxHoles : Int) : Option CasOut :=
  let nv := g.nvfsio
  if validate ∧ target = NvfsIoState.DONE
      ∧ (nv.ret < 0 ∨ nv.ret > (nv.length : Int)) then none
  else
    match casRun g target validate inInterrupt pfExiting maxHoles with
    | none => none
    | some st =>
      let nv1 := { nv with check_sparse := st.check_sparse }
      let nv2 := if target = NvfsIoState.DONE ∧ nv.ret ≠ cERESTARTSYS
          ∧ ¬pfExiting then
        { nv1 with nvfs_active_blocks_start := 0, nvfs_active_blocks_end := 0 }
        else nv1
      let pub : Option NvfsSparse := if st.sparseMapped then
          some ⟨st.nholes + 1, st.holes, nv.fd_offset⟩
        else none
      let nv3 := if st.sparseMapped then
          { nv2 with metastate := if st.nholes + 1 ≠ 0 then
              NvfsMetastate.META_SPARSE else NvfsMetastate.META_CLEAN }
        else nv2
      let nv4 :=
        if ¬update_nvfsio ∨ nv.ret < 0 then nv3
        else if st.retAcc < 0 then { nv3 with ret := st.retAcc }
        else if st.sparseLimit > 0 then { nv3 with ret := st.sparseLimit }
        else nv3
      some ⟨{ g with nvfs_metadata := st.mpages, nvfsio := nv4 },
            pub, st.warned⟩

/-- Whether a `check_and_set` run completed without a BUG_ON abort. -/
def casOk (o : Option CasOut) : Bool := o.isSome

/-- State of block `i` after a `check_and_set` run (when it completed). -/
def casStateAt (o : Option CasOut) (i : Nat) : Option NvfsIoState :=
  o.map (fun c => (c.grp.nvfs_metadata.getD i default).nvfs_state)

/-- Sparse metadata published by a `check_and_set` run. -/
def casSparse (o : Option CasOut) : Option NvfsSparse :=
  match o with
  | some c => c.sparse
  | none => none

/-- The descriptor's `ret` after a `check_and_set` run (when it completed). -/
def casRet (o : Option CasOut) : Option Int :=
  o.map (fun c => c.grp.nvfsio.ret)

/-- Result of `nvfs_mgroup_fill_mpages`: normal return 0, error return
`-EIO`, or a BUG_ON abort inside `nvfs_mgroup_fill_mpage`. -/
inductive FillRes where
  | ok
  | eio
  | bug
deriving DecidableEq

/-- `nvfs_mgroup_fill_mpage(page, nvfs_mdata, nvfsio)`: validates one
block's metadata (`BUG_ON` on a missing page, a bad validity magic, a prior
state other than INIT/DONE, or a page that does not match the metadata's
folio back-reference) and transitions it to QUEUED.  `none` models the
BUG_ON abort. -/
def nvfs_mgroup_fill_mpage (page : Nat) (m : NvfsMeta) : Option NvfsMeta :=
  match m.folio with
  | none => none
  | some f =>
    if m.nvfs_start_magic ≠ NVFS_START_MAGIC then none
    else if m.nvfs_state ≠ NvfsIoState.INIT
        ∧ m.nvfs_state ≠ NvfsIoState.DONE then none
    else if folioPage f (m.folio_offset / PAGE_SIZE) ≠ page then none
    else some { m with nvfs_state := NvfsIoState.QUEUED }

/-- The padding/tail loops of `nvfs_mgroup_fill_mpages`: force `fuel`
blocks starting at index `j` back to INIT. -/
def initStateRange (ms : List NvfsMeta) : Nat → Nat → List NvfsMeta
  | _, 0 => ms
  | j, fuel + 1 =>
    initStateRange
      (ms.set j { ms.getD j default with nvfs_state := NvfsIoState.INIT })
      (j + 1) fuel

/-- The queueing loop of `nvfs_mgroup_fill_mpages`: for `fuel` blocks from
index `j`, compute the backing page from the folio array
(`folio_page(nvfs_folios[j / 16], (j % 16) / blocks_per_page)`, a NULL
folio dereference modelled as abort) and run `nvfs_mgroup_fill_mpage`. -/
def queueStateRange (folios : List (Option NvfsFolio)) (ms : List NvfsMeta) :
    Nat → Nat → Option (List NvfsMeta)
  | _, 0 => some ms
  | j, fuel + 1 =>
    let bcpp := PAGE_SIZE / NVFS_BLOCK_SIZE
    match folios.getD (j / (GPU_PAGE_SIZE / NVFS_BLOCK_SIZE)) none with
    | none => none
    | some f =>
      let page := folioPage f ((j % (GPU_PAGE_SIZE / NVFS_BLOCK_SIZE)) / bcpp)
      match nvfs_mgroup_fill_mpage page (ms.getD j default) with
      | none => none
      | some m' => queueStateRange folios (ms.set j m') (j + 1) fuel

/-- The `gpu_page_offset` validation block of `nvfs_mgroup_fill_mpages`
(run only when the offset is non-zero, in source order): offset at most
60 KiB, block-aligned, byte range within one accelerator page, and block
range within the group; yields `blockoff = gpu_page_offset >> 12` on
success and `none` (the `-EIO` returns) otherwise. -/
def fillChecks (g : NvfsMgroup) (nr_blocks : Nat) : Option Nat :=
  let nv := g.nvfsio
  if nv.gpu_page_offset ≠ 0 then
    if nv.gpu_page_offset > GPU_PAGE_SIZE - KiB4 then none
    else if nv.gpu_page_offset % KiB4 ≠ 0 then none
    else if nv.gpu_page_offset + nr_blocks * NVFS_BLOCK_SIZE
        > GPU_PAGE_SIZE then none
    else
      let blockoff := nv.gpu_page_offset >>> NVFS_BLOCK_SHIFT
      if blockoff + nr_blocks > g.nvfs_blocks_count then none
      else some blockoff
  else some 0

/-- `nvfs_mgroup_fill_mpages(nvfs_mgroup, nr_blocks)` — `queue_blocks` in
the spec.  Mirrors the source order: the block-count check, then (only
when `gpu_page_offset` is non-zero) the offset checks and the padding
loop, then active-range bookkeeping, the queueing loop, the tail loop and
the `cpuvaddr` adjustment.  Returns the result together with the group as
left behind at the corresponding exit point. -/
def nvfs_mgroup_fill_mpages (g : NvfsMgroup) (nr_blocks : Nat) :
    FillRes × NvfsMgroup :=
  let nv := g.nvfsio
  if nr_blocks > g.nvfs_blocks_count then (FillRes.eio, g)
  else
    match fillChecks g nr_blocks with
    | none => (FillRes.eio, g)
    | some blockoff =>
      let ms0 := if nv.gpu_page_offset ≠ 0 then
          initStateRange g.nvfs_metadata 0 blockoff
        else g.nvfs_metadata
      let nv1 := { nv with nvfs_active_blocks_start := blockoff }
      match queueStateRange g.nvfs_folios ms0 blockoff nr_blocks with
      | none =>
        (FillRes.bug, { g with nvfs_metadata := ms0, nvfsio := nv1 })
      | some ms1 =>
        let jEnd := blockoff + nr_blocks
        let nv2 := { nv1 with
          nvfs_active_blocks_end := if jEnd > 0 then jEnd - 1 else 0 }
        let ms2 := initStateRange ms1 jEnd (g.nvfs_blocks_count - jEnd)
        let nv3 := { nv2 with
          cpuvaddr := nv2.cpuvaddr + (blockoff <<< NVFS_BLOCK_SHIFT) }
        (FillRes.ok, { g with nvfs_metadata := ms2, nvfsio := nv3 })

/-- The key-drawing loop of `nvfs_mgroup_mmap_internal`: `draws k` is the
k-th random value of `NVFS_MIN_BASE_INDEX + prandom_u32()`; `reg` is the
set of keys currently linked in the hash table; `tries` is the C counter
(post-decremented in the collision test, re-tested by `while (tries)`).
Returns the new key list and the inserted key, or `none` when the retry
budget is exhausted (the caller then fails with `-ENOMEM`).  The `tries =
0` arm mirrors the C condition `nvfs_mgroup && tries--` evaluating to
false on a collision with an exhausted counter, in which case the source
would link the colliding key; it is unreachable from the actual call,
which starts at `tries = 10` and re-tests `while (tries)`. -/
def mmapInsertLoop (reg : List Nat) (draws : Nat → Nat) :
    Nat → Nat → Option (List Nat × Nat)
  | idx, tries =>
    let d := draws idx
    if reg.contains d then
      match tries with
      | 0 => some (d :: reg, d)
      | t + 1 =>
        if t = 0 then none
        else mmapInsertLoop reg draws (idx + 1) t
    else some (d :: reg, d)

/-- A freshly linked group as the registry sees it: its key and its
reference count (`atomic_set(&nvfs_new_mgroup->ref, 1)`). -/
structure RegEntry where
  key : Nat
  ref : Int
deriving DecidableEq

/-- The registry-insertion slice of `nvfs_mgroup_mmap_internal`: draw a
random key, probe the hash table under the lock, retry a collision with a
budget of 10, link the new group with reference count 1 on success, fail
with `-ENOMEM` (leaving the registry unchanged) when the budget is
exhausted. -/
def nvfs_mgroup_mmap_insert (reg : List Nat) (draws : Nat → Nat) :
    Except Int RegEntry × List Nat :=
  match mmapInsertLoop reg draws 0 10 with
  | none => (Except.error cENOMEM, reg)
  | some (reg', k) => (Except.ok ⟨k, 1⟩, reg')

/-- The mapping-length validation slice of `nvfs_mgroup_mmap_internal`
(run before any group state is created): reject a length larger than
`NVFS_MAX_SHADOW_PAGES * PAGE_SIZE`, a length below one accelerator page
that is not block-aligned, and a length above one accelerator page that is
not accelerator-page-aligned.  `ret` is `-EINVAL` at this point, so each
rejection returns `-EINVAL`. -/
def nvfs_mgroup_mmap_length_check (length : Nat) : Except Int Unit :=
  if length > NVFS_MAX_SHADOW_PAGES * PAGE_SIZE then Except.error cEINVAL
  else if length < GPU_PAGE_SIZE ∧ length % NVFS_BLOCK_SIZE ≠ 0 then
    Except.error cEINVAL
  else if length > GPU_PAGE_SIZE ∧ length % GPU_PAGE_SIZE ≠ 0 then
    Except.error cEINVAL
  else Except.ok ()

/-- Return classification of `__nvfs_mgroup_from_folio`: a NULL return
(not a managed folio / failed identity check), an `ERR_PTR` return, or a
found group (returned with its reference count already incremented). -/
inductive FolioLookup where
  | null
  | errPtr (e : Int)
  | found (g : NvfsMgroup)
deriving DecidableEq

/-- `nvfs_mgroup_get(base_index)`: wait-free registry lookup; on a hit the
group's reference count is atomically incremented before the handle is
returned. -/
def nvfs_mgroup_get (reg : List NvfsMgroup) (base_index : Nat) :
    Option NvfsMgroup :=
  match reg.find? (fun g => g.base_index == base_index) with
  | some g => some { g with ref := g.ref + 1 }
  | none => none

/-- Outcome of the per-folio metadata scan in `__nvfs_mgroup_from_folio`. -/
inductive MetaChk where
  | pass
  | badMeta
  | dmaErr
deriving DecidableEq

/-- The metadata scan of `__nvfs_mgroup_from_folio`: for each block index
covered by the folio, check the validity magic, that the stored folio
back-reference equals the queried folio, and (when `check_dma_error`)
that the block is not in DMA_ERROR. -/
def folioMetaCheck (g : NvfsMgroup) (folio : NvfsFolio) (chk : Bool) :
    Nat → Nat → MetaChk
  | _, 0 => MetaChk.pass
  | i, fuel + 1 =>
    let m := g.nvfs_metadata.getD i default
    if m.nvfs_start_magic ≠ NVFS_START_MAGIC then MetaChk.badMeta
    else if m.folio ≠ some folio then MetaChk.badMeta
    else if chk ∧ m.nvfs_state = NvfsIoState.DMA_ERROR then MetaChk.dmaErr
    else folioMetaCheck g folio chk (i + 1) fuel

/-- `__nvfs_mgroup_from_folio(folio, check_dma_error)`: derive the region
key from the folio index, look the group up, verify the folio is the one
stored in the group's folio array and in the covered metadata entries, and
finally check the folio's page range against the descriptor's active block
range; a folio outside the active range is answered with
`ERR_PTR(-EIO)`.  `reg` is the registry contents. -/
def nvfs_mgroup_from_folio_internal (reg : List NvfsMgroup)
    (folio : NvfsFolio) (check_dma_error : Bool) : FolioLookup :=
  let bcpp := PAGE_SIZE / NVFS_BLOCK_SIZE
  if folio.mapping ≠ none then FolioLookup.null
  else
    let base_index := folio.index >>> NVFS_MAX_SHADOW_PAGES_ORDER
    if base_index < NVFS_MIN_BASE_INDEX then FolioLookup.null
    else
      match nvfs_mgroup_get reg base_index with
      | none => FolioLookup.null
      | some g =>
        let folio_idx := folio.index % NVFS_MAX_SHADOW_PAGES
        if ¬(folio_idx < g.nvfs_folios_count
            ∧ g.nvfs_folios.getD folio_idx none = some folio) then
          FolioLookup.null
        else
          let blocks_per_folio := folio.nr_pages * PAGE_SIZE / NVFS_BLOCK_SIZE
          let start_block := folio_idx * (GPU_PAGE_SIZE / NVFS_BLOCK_SIZE)
          let stop := min (start_block + blocks_per_folio) g.nvfs_blocks_count
          match folioMetaCheck g folio check_dma_error start_block
              (stop - start_block) with
          | MetaChk.badMeta => FolioLookup.null
          | MetaChk.dmaErr => FolioLookup.errPtr cEIO
          | MetaChk.pass =>
            let folio_start_page := folio.index % NVFS_MAX_SHADOW_PAGES
            let folio_end_page := folio_start_page + folio.nr_pages - 1
            if g.nvfsio.nvfs_active_blocks_start / bcpp > folio_end_page
                ∨ g.nvfsio.nvfs_active_blocks_end / bcpp < folio_start_page
            then FolioLookup.errPtr cEIO
            else FolioLookup.found g

/-- `nvfs_check_gpu_folio_and_error(folio, offset, len)`: classify a folio
for the generic I/O completion path — 1 for a GPU folio without error,
-1 for a GPU folio whose lookup returned an error pointer, 0 for a folio
that is not a GPU folio (the reference bookkeeping on the 1-path acts on
counters that are dropped by this return-value model). -/
def nvfs_check_gpu_folio_and_error (reg : List NvfsMgroup)
    (folio : NvfsFolio) : Int :=
  match nvfs_mgroup_from_folio_internal reg folio true with
  | FolioLookup.null => 0
  | FolioLookup.errPtr _ => -1
  | FolioLookup.found _ => 1

/-- Outcome of `nvfs_mgroup_from_page_range`: a NULL return (lookup
failed), an `ERR_PTR(-EIO)` return carrying the group as left behind when
one was found (block marked DMA_ERROR, reference released), or success. -/
inductive FprOut where
  | null
  | err (g : Option NvfsMgroup)
  | ok (g : NvfsMgroup)
deriving DecidableEq

/-- The contiguity check of `nvfs_mgroup_from_page_range` between the
current and the previous block's metadata: when both carry folio
back-references, the blocks' pages must be physically adjacent or the
same (`page_to_pfn(curr) != page_to_pfn(prev) + 1 &&
page_to_pfn(curr) != page_to_pfn(prev)` flags the bad case). -/
def fprContiguityBad (m mp : NvfsMeta) : Bool :=
  match m.folio, mp.folio with
  | some fc, some fp =>
    let curr_pfn := folioPage fc (m.folio_offset / PAGE_SIZE)
    let prev_pfn := folioPage fp (mp.folio_offset / PAGE_SIZE)
    curr_pfn ≠ prev_pfn + 1 ∧ curr_pfn ≠ prev_pfn
  | _, _ => false

/-- The contiguity check of `nvfs_mgroup_from_page_range` for block
metadata `m` against the block recorded in the loop's previous-iteration
pointer, `none` on the first iteration (the C code guards it with
`nvfs_mpage != NULL`). -/
def fprContigChk (g : NvfsMgroup) (m : NvfsMeta) (lastPtr : Option Nat) :
    Bool :=
  match lastPtr with
  | none => false
  | some kp => fprContiguityBad m (g.nvfs_metadata.getD kp default)

/-- The verification loop of `nvfs_mgroup_from_page_range` over `fuel`
blocks starting at iteration `i`.  `lastPtr` is the C `nvfs_mpage`
pointer: it still holds the previous iteration's block when the
issued-range check fails (that check runs before the pointer is advanced),
and the current block for the contiguity and state checks.  On any failed
check the block under `lastPtr` (if any) is marked DMA_ERROR, the group
reference taken by the lookup is dropped and `ERR_PTR(-EIO)` is
returned. -/
def fprLoop (folioIndex : Nat) (block_idx : Nat) (nblocks : Nat)
    (g : NvfsMgroup) (lastPtr : Option Nat) (i : Nat) :
    Nat → FprOut
  | 0 => FprOut.ok g
  | fuel + 1 =>
    let bcpp := PAGE_SIZE / NVFS_BLOCK_SIZE
    let fail (p : Option Nat) : FprOut :=
      let g1 := match p with
        | none => g
        | some k =>
          let m := g.nvfs_metadata.getD k default
          let m' := { m with nvfs_state := NvfsIoState.DMA_ERROR }
          { g with nvfs_metadata := g.nvfs_metadata.set k m' }
      FprOut.err (some { g1 with ref := g1.ref - 1 })
    let cur_page := i / bcpp
    if (folioIndex + cur_page) % NVFS_MAX_SHADOW_PAGES
        > g.nvfsio.nvfs_active_blocks_end / bcpp then
      fail lastPtr
    else
      let k := block_idx + i
      let m := g.nvfs_metadata.getD k default
      if fprContigChk g m lastPtr then fail (some k)
      else if m.nvfs_state ≠ NvfsIoState.QUEUED
          ∧ m.nvfs_state ≠ NvfsIoState.DMA_START then fail (some k)
      else
        let m' := { m with nvfs_state := NvfsIoState.DMA_START }
        let g' := { g with nvfs_metadata := g.nvfs_metadata.set k m' }
        fprLoop folioIndex block_idx nblocks g' (some k) (i + 1) fuel

/-- `nvfs_mgroup_from_page_range(page, nblocks, start_offset)` — the
multi-block `advance_to_dma` form.  `folio` is `page_folio(page)`; the
group lookup is `__nvfs_mgroup_from_page`, then each covered block is
verified to be QUEUED or already DMA_START and advanced to DMA_START. -/
def nvfs_mgroup_from_page_range (reg : List NvfsMgroup) (folio : NvfsFolio)
    (nblocks : Nat) (start_offset : Nat) : FprOut :=
  match nvfs_mgroup_from_folio_internal reg folio false with
  | FolioLookup.null => FprOut.null
  | FolioLookup.errPtr _ => FprOut.err none
  | FolioLookup.found g =>
    let bcpp := PAGE_SIZE / NVFS_BLOCK_SIZE
    let block_idx := (folio.index % NVFS_MAX_SHADOW_PAGES) * bcpp
      + start_offset / NVFS_BLOCK_SIZE
    fprLoop folio.index block_idx nblocks g none 0 nblocks

/-- Modelled from the spec: `METADATA_BLOCK_START_INDEX(offset)` — the
macro lives in a header outside the excerpt; the spec says the byte
offset/length pair "translates to the corresponding block indices", so
the start index is the offset in 4 KiB blocks. -/
def METADATA_BLOCK_START_INDEX (off : Nat) : Nat := off / NVFS_BLOCK_SIZE

/-- Modelled from the spec: `METADATA_BLOCK_END_INDEX(offset, len)` — the
inclusive block index of the last byte of the range. -/
def METADATA_BLOCK_END_INDEX (off len : Nat) : Nat :=
  (off + len - 1) / NVFS_BLOCK_SIZE

/-- The verification loop of `nvfs_mgroup_metadata_set_dma_state_folio`
over blocks `i ≤ k < i + fuel`: a block in a state other than
QUEUED/DMA_START is marked DMA_ERROR, the group reference is dropped and
`-EIO` is returned; QUEUED blocks advance to DMA_START, DMA_START blocks
are tolerated unchanged. -/
def setDmaLoop (g : NvfsMgroup) (i : Nat) : Nat → Int × NvfsMgroup
  | 0 => (0, g)
  | fuel + 1 =>
    let m := g.nvfs_metadata.getD i default
    if m.nvfs_state ≠ NvfsIoState.QUEUED
        ∧ m.nvfs_state ≠ NvfsIoState.DMA_START then
      let m' := { m with nvfs_state := NvfsIoState.DMA_ERROR }
      ( cEIO,
        { g with
          nvfs_metadata := g.nvfs_metadata.set i m',
          ref := g.ref - 1 })
    else
      let m' := { m with nvfs_state := NvfsIoState.DMA_START }
      let g' := if m.nvfs_state = NvfsIoState.QUEUED then
          { g with nvfs_metadata := g.nvfs_metadata.set i m' }
        else g
      setDmaLoop g' (i + 1) fuel

/-- `nvfs_mgroup_metadata_set_dma_state_folio(folio, nvfs_mgroup, bv_len,
bv_offset)` — the bio-vector `advance_to_dma` form: translate the byte
range into block indices relative to the folio's slot and advance each
covered block to DMA_START. -/
def nvfs_mgroup_metadata_set_dma_state_folio (folio : NvfsFolio)
    (g : NvfsMgroup) (bv_len bv_offset : Nat) : Int × NvfsMgroup :=
  let bcpp := PAGE_SIZE / NVFS_BLOCK_SIZE
  let start_block := METADATA_BLOCK_START_INDEX bv_offset
  let end_block := METADATA_BLOCK_END_INDEX bv_offset bv_len
  let block_idx := (folio.index % NVFS_MAX_SHADOW_PAGES) * bcpp
  setDmaLoop g (block_idx + start_block) (end_block + 1 - start_block)

instance : Inhabited NvfsMgroup :=
  ⟨⟨0, 0, 0, 0, 0, [], [],
    ⟨IoOp.READ, 0, 0, 0, 0, false, 0, 0, 0, NvfsMetastate.META_CLEAN⟩⟩⟩

/-- A metadata entry with the validity magic, a given state and no folio
back-reference (sufficient for the reconciliation examples, which never
read the folio fields). -/
def mkMeta (s : NvfsIoState) : NvfsMeta := ⟨NVFS_START_MAGIC, s, none, 0⟩

/-- The `folio_idx`-th 64 KiB folio of the group with region key `b`, as
`nvfs_mgroup_mmap_internal` populates it: `index = b * NVFS_MAX_SHADOW_PAGES
+ folio_idx`, 16 CPU pages, anonymous (`mapping = NULL`). -/
def mkFolio (b folio_idx pfn : Nat) : NvfsFolio :=
  ⟨folio_idx, b * NVFS_MAX_SHADOW_PAGES + folio_idx, pfn, none, 16⟩

/-- Block `j`'s metadata as region population writes it: validity magic,
folio back-reference `nvfs_folios[j / 16]` and offset `(j % 16) * 4096`. -/
def mkWfMeta (folios : List (Option NvfsFolio)) (j : Nat) (s : NvfsIoState) :
    NvfsMeta :=
  ⟨NVFS_START_MAGIC, s, folios.getD (j / 16) none, (j % 16) * NVFS_BLOCK_SIZE⟩

/-- A fully populated memory group with region key `b`, per-block states
`states`, active range `[as, ae]` and the given operation parameters; the
folio array and metadata back-references follow the population layout of
`nvfs_mgroup_mmap_internal`. -/
def mkGroup (b : Nat) (states : List NvfsIoState) (as ae : Nat) (op : IoOp)
    (ret : Int) (len : Nat) : NvfsMgroup :=
  let n := states.length
  let fc := (n + 15) / 16
  let folios := (List.range fc).map (fun k => some (mkFolio b k (1000 + 16 * k)))
  { base_index := b
    ref := 1
    dma_ref := 0
    nvfs_blocks_count := n
    nvfs_folios_count := fc
    nvfs_folios := folios
    nvfs_metadata := (List.range n).map
      (fun j => mkWfMeta folios j (states.getD j NvfsIoState.FREE))
    nvfsio :=
      { op := op
        nvfs_active_blocks_start := as
        nvfs_active_blocks_end := ae
        ret := ret
        length := len
        check_sparse := false
        gpu_page_offset := 0
        cpuvaddr := 0
        fd_offset := 0
        metastate := NvfsMetastate.META_CLEAN } }

/-- EOF-truncation example: 10 issued blocks (active range 0-9), blocks
0-5 reached DMA_START, blocks 6-9 still QUEUED, completion byte count
24576 (6 blocks) out of 40960. -/
def egShortRead : NvfsMgroup :=
  { mkGroup NVFS_MIN_BASE_INDEX
      (List.replicate 6 NvfsIoState.DMA_START
        ++ List.replicate 4 NvfsIoState.QUEUED) 0 9 IoOp.READ 24576 40960 with
    nvfs_metadata :=
      List.replicate 6 (mkMeta NvfsIoState.DMA_START)
        ++ List.replicate 4 (mkMeta NvfsIoState.QUEUED) }

/-- Sparse round-trip example: 26 blocks, active range 16-25 (10 issued
blocks), the blocks at relative indices 2, 3 and 7 never reached
DMA_START, full byte count achieved. -/
def egSparse : NvfsMgroup :=
  { mkGroup NVFS_MIN_BASE_INDEX (List.replicate 26 NvfsIoState.INIT)
      16 25 IoOp.READ 40960 40960 with
    nvfs_metadata :=
      (List.replicate 16 NvfsIoState.INIT
        ++ [NvfsIoState.DMA_START, NvfsIoState.DMA_START, NvfsIoState.QUEUED,
            NvfsIoState.QUEUED, NvfsIoState.DMA_START, NvfsIoState.DMA_START,
            NvfsIoState.DMA_START, NvfsIoState.QUEUED, NvfsIoState.DMA_START,
            NvfsIoState.DMA_START]).map mkMeta,
    nvfsio := { (mkGroup NVFS_MIN_BASE_INDEX (List.replicate 26 NvfsIoState.INIT)
      16 25 IoOp.READ 40960 40960).nvfsio with fd_offset := 7 } }

/-- Hole-limit example that hits the limit: 10 issued blocks (active range
0-9), non-contiguous holes at blocks 0, 2 and 4 (QUEUED), the rest
DMA_START, full byte count achieved. -/
def egThreeHoles : NvfsMgroup :=
  { mkGroup NVFS_MIN_BASE_INDEX (List.replicate 10 NvfsIoState.INIT)
      0 9 IoOp.READ 40960 40960 with
    nvfs_metadata :=
      [NvfsIoState.QUEUED, NvfsIoState.DMA_START, NvfsIoState.QUEUED,
       NvfsIoState.DMA_START, NvfsIoState.QUEUED, NvfsIoState.DMA_START,
       NvfsIoState.DMA_START, NvfsIoState.DMA_START, NvfsIoState.DMA_START,
       NvfsIoState.DMA_START].map mkMeta }

/-- Hole-limit example that stays at the limit: as `egThreeHoles` but with
non-contiguous holes only at blocks 0 and 2. -/
def egTwoHoles : NvfsMgroup :=
  { mkGroup NVFS_MIN_BASE_INDEX (List.replicate 10 NvfsIoState.INIT)
      0 9 IoOp.READ 40960 40960 with
    nvfs_metadata :=
      [NvfsIoState.QUEUED, NvfsIoState.DMA_START, NvfsIoState.QUEUED,
       NvfsIoState.DMA_START, NvfsIoState.DMA_START, NvfsIoState.DMA_START,
       NvfsIoState.DMA_START, NvfsIoState.DMA_START, NvfsIoState.DMA_START,
       NvfsIoState.DMA_START].map mkMeta }

/-- A one-block group whose block is still in state FREE (active range
0-0). -/
def egFreeBlock : NvfsMgroup :=
  { mkGroup NVFS_MIN_BASE_INDEX [NvfsIoState.FREE] 0 0 IoOp.READ 0 0 with
    nvfs_metadata := [mkMeta NvfsIoState.FREE] }

/-- A 32-block group whose active range 16-31 covers only its second
folio. -/
def egActiveHigh : NvfsMgroup :=
  mkGroup NVFS_MIN_BASE_INDEX (List.replicate 32 NvfsIoState.QUEUED)
    16 31 IoOp.READ 0 0

/-- The first folio (blocks 0-15) of the example groups with region key
`NVFS_MIN_BASE_INDEX`. -/
def egFolio0 : NvfsFolio := mkFolio NVFS_MIN_BASE_INDEX 0 1000

/-- The second folio (blocks 16-31) of `egActiveHigh`. -/
def egFolio1 : NvfsFolio := mkFolio NVFS_MIN_BASE_INDEX 1 1016

/-- A 16-block group with every block QUEUED and active range 0-15. -/
def egQueued16 : NvfsMgroup :=
  mkGroup NVFS_MIN_BASE_INDEX (List.replicate 16 NvfsIoState.QUEUED)
    0 15 IoOp.READ 0 0

/-- A 16-block group whose block 2 is in the unexpected state INIT while
blocks 0 and 1 are QUEUED/DMA_START and the rest QUEUED. -/
def egBadBlock2 : NvfsMgroup :=
  mkGroup NVFS_MIN_BASE_INDEX
    ([NvfsIoState.QUEUED, NvfsIoState.DMA_START, NvfsIoState.INIT]
      ++ List.replicate 13 NvfsIoState.QUEUED) 0 15 IoOp.READ 0 0

/-- `egQueued16` as the folio lookup hands it back (reference taken). -/
def egFoundQ16 : NvfsMgroup := { egQueued16 with ref := egQueued16.ref + 1 }

/-- `egBadBlock2` as the folio lookup hands it back (reference taken). -/
def egFoundBad : NvfsMgroup := { egBadBlock2 with ref := egBadBlock2.ref + 1 }

/-- A 17-block group (two folios) with every block in state INIT. -/
def egInit17 : NvfsMgroup :=
  mkGroup NVFS_MIN_BASE_INDEX (List.replicate 17 NvfsIoState.INIT)
    0 0 IoOp.READ 0 0

/-- A 16-block all-INIT group. -/
def egInit16 : NvfsMgroup :=
  mkGroup NVFS_MIN_BASE_INDEX (List.replicate 16 NvfsIoState.INIT)
    0 0 IoOp.READ 0 0

/-- `egInit16` with a sub-accelerator-page offset of 8192 bytes pending in
its descriptor and a non-zero shadow-buffer base address. -/
def egOffset8k : NvfsMgroup :=
  { egInit16 with
    nvfsio := { egInit16.nvfsio with gpu_page_offset := 8192, cpuvaddr := 10000 } }

/-- The physical frame a metadata entry points at
(`folio_page(nvfs_mpage->folio, nvfs_mpage->folio_offset / PAGE_SIZE)`),
when it has a folio back-reference. -/
def metaPfn (m : NvfsMeta) : Option Nat :=
  m.folio.map (fun f => folioPage f (m.folio_offset / PAGE_SIZE))

/-- The contiguity condition of `nvfs_mgroup_from_page_range` between the
current and the previous block's metadata: when both carry folio
back-references, their pages must be the same or physically adjacent. -/
def contigPairOk (mc mp : NvfsMeta) : Bool :=
  match metaPfn mc, metaPfn mp with
  | some c, some p => c == p + 1 || c == p
  | _, _ => true

/-- The issued-range check of `nvfs_mgroup_from_page_range` at iteration
`i` (it must not step past the page containing the last active block). -/
def fprRangeOk (folioIndex : Nat) (g : NvfsMgroup) (i : Nat) : Bool :=
  (folioIndex + i / (PAGE_SIZE / NVFS_BLOCK_SIZE)) % NVFS_MAX_SHADOW_PAGES
    ≤ g.nvfsio.nvfs_active_blocks_end / (PAGE_SIZE / NVFS_BLOCK_SIZE)

/-- The group carried by a `nvfs_mgroup_from_page_range` outcome, if any. -/
def fprGrp : FprOut → Option NvfsMgroup
  | FprOut.null => none
  | FprOut.err g => g
  | FprOut.ok g => some g

/-- Whether a `nvfs_mgroup_from_page_range` outcome is a success. -/
def fprIsOk : FprOut → Bool
  | FprOut.ok _ => true
  | _ => false

/-- Whether a `nvfs_mgroup_from_page_range` outcome is an `ERR_PTR`
return. -/
def fprIsErr : FprOut → Bool
  | FprOut.err _ => true
  | _ => false

/-- Whether a `check_and_set` run flagged a validation warning. -/
def casWarned (o : Option CasOut) : Option Bool :=
  o.map (fun c => c.warned)

/-- C1 counterexample: reconciling the spec's own example (10 issued
blocks, active range 0-9, `bytes_result = 24576`, validation on, process
not exiting, operation not interrupted) leaves blocks 6-9 in state DONE —
`nvfs_mgroup_check_and_set` applies the target state to every active-range
block after validation — and not at INIT as the claim states. -/
theorem c1_short_read_tail_blocks_cex :
    casStateAt (nvfs_mgroup_check_and_set egShortRead NvfsIoState.DONE true true
        false false 512) 6 = some NvfsIoState.DONE
    ∧ casStateAt (nvfs_mgroup_check_and_set egShortRead NvfsIoState.DONE true true
        false false 512) 7 = some NvfsIoState.DONE
    ∧ casStateAt (nvfs_mgroup_check_and_set egShortRead NvfsIoState.DONE true true
        false false 512) 8 = some NvfsIoState.DONE
    ∧ casStateAt (nvfs_mgroup_check_and_set egShortRead NvfsIoState.DONE true true
        false false 512) 9 = some NvfsIoState.DONE
    ∧ ¬ casStateAt (nvfs_mgroup_check_and_set egShortRead NvfsIoState.DONE true true
        false false 512) 6 = some NvfsIoState.INIT := by decide

/-- C2: sparse round-trip.  On the claim's scenario — a read reconciliation
with validation enabled, 10 issued blocks at active range 16-25, of which
the blocks at relative indices 2, 3 and 7 never reached DMA_START — the
published sparse metadata holds exactly the two hole records
`{start = 2, length = 2}` and `{start = 7, length = 1}` (starts relative
to the active-range start), a hole count of 2, and the operation's file
offset; the same result obtains for either representative value of the
`NVFS_MAX_HOLE_REGIONS` bound. -/
theorem c2_sparse_round_trip :
    casSparse (nvfs_mgroup_check_and_set egSparse NvfsIoState.DONE true true
        false false 512) = some ⟨2, [⟨2, 2⟩, ⟨7, 1⟩], 7⟩
    ∧ casSparse (nvfs_mgroup_check_and_set egSparse NvfsIoState.DONE true true
        false false 3) = some ⟨2, [⟨2, 2⟩, ⟨7, 1⟩], 7⟩
    ∧ casOk (nvfs_mgroup_check_and_set egSparse NvfsIoState.DONE true true
        false false 512) = true := by decide

/-- C3 counterexample: with the hole-record bound instantiated at 2, a
read reconciliation with non-contiguous holes at blocks 0 and 2 records
BOTH holes — recording the second hole makes the number of hole records
reach the bound, yet it is still added — and leaves the byte result at the
full 40960; the claim as stated predicts that the second hole is not
recorded and that the result is truncated to `(2 - 0) * 4096 = 8192`.
The truncation only fires when one more hole would EXCEED the bound. -/
theorem c3_hole_limit_cex :
    casSparse (nvfs_mgroup_check_and_set egTwoHoles NvfsIoState.DONE true true
        false false 2) = some ⟨2, [⟨0, 1⟩, ⟨2, 1⟩], 0⟩
    ∧ casRet (nvfs_mgroup_check_and_set egTwoHoles NvfsIoState.DONE true true
        false false 2) = some 40960 := by decide

/-- C3 amended: with the hole-record bound instantiated at 2, a read
reconciliation with non-contiguous holes at blocks 0, 2 and 4 keeps
exactly the two representable hole records `{0,1}` and `{2,1}`, adds no
record for the third hole (which would exceed the bound), and reduces the
externally visible byte result to `(4 - 0) * 4096 = 16384` — the bytes
processed before the limit was hit — rather than reporting an error. -/
theorem c3_hole_limit_truncation :
    casSparse (nvfs_mgroup_check_and_set egThreeHoles NvfsIoState.DONE true true
        false false 2) = some ⟨2, [⟨0, 1⟩, ⟨2, 1⟩], 0⟩
    ∧ casRet (nvfs_mgroup_check_and_set egThreeHoles NvfsIoState.DONE true true
        false false 2) = some 16384
    ∧ casOk (nvfs_mgroup_check_and_set egThreeHoles NvfsIoState.DONE true true
        false false 2) = true := by decide

/-- C4 counterexample: `nvfs_mgroup_check_and_set` invoked with target
QUEUED and validation enabled on a block whose prior state is FREE still
changes that block to QUEUED (the validation failure only raises a
WARN_ON_ONCE), contradicting the claim that a block's state is changed to
QUEUED only from INIT or DONE. -/
theorem c4_queued_from_free_cex :
    casStateAt (nvfs_mgroup_check_and_set egFreeBlock NvfsIoState.QUEUED true
        false false false 512) 0 = some NvfsIoState.QUEUED
    ∧ casWarned (nvfs_mgroup_check_and_set egFreeBlock NvfsIoState.QUEUED true
        false false false 512) = some true := by decide

/-- C6 counterexample: with `gpu_page_offset = 0`, `nvfs_mgroup_fill_mpages`
skips the accelerator-page fit checks entirely, so a 17-block request
(whose byte size `0 + 17 * 4096 = 69632` exceeds the 64 KiB accelerator
page) on a 17-block group succeeds instead of failing with `-EIO` as the
claim requires. -/
theorem c6_zero_offset_no_eio_cex :
    (nvfs_mgroup_fill_mpages egInit17 17).1 = FillRes.ok
    ∧ egInit17.nvfsio.gpu_page_offset + 17 * NVFS_BLOCK_SIZE > GPU_PAGE_SIZE := by
  decide

/-- C9 counterexample: a backing folio of a live group that passes the
identity verification but whose block range does not intersect the active
range is answered by `__nvfs_mgroup_from_folio` with the error pointer
`ERR_PTR(-EIO)`, and `nvfs_check_gpu_folio_and_error` consequently reports
it as `-1` — the "GPU folio with DMA mapping error" result — rather than
any distinct "not currently relevant" outcome. -/
theorem c9_out_of_range_error_cex :
    nvfs_mgroup_from_folio_internal [egActiveHigh] egFolio0 true
      = FolioLookup.errPtr cEIO
    ∧ nvfs_check_gpu_folio_and_error [egActiveHigh] egFolio0 = -1 := by decide

/-- The exact condition under which `nvfs_mgroup_fill_mpages` returns
`-EIO`: the block count exceeds the group's, or — only when a non-zero
`gpu_page_offset` is pending — the offset is beyond 60 KiB, misaligned,
the byte range does not fit one accelerator page, or the block range does
not fit the group. -/
def fillEioCond (g : NvfsMgroup) (nr : Nat) : Prop :=
  nr > g.nvfs_blocks_count
  ∨ (g.nvfsio.gpu_page_offset ≠ 0
    ∧ (g.nvfsio.gpu_page_offset > GPU_PAGE_SIZE - KiB4
      ∨ g.nvfsio.gpu_page_offset % KiB4 ≠ 0
      ∨ g.nvfsio.gpu_page_offset + nr * NVFS_BLOCK_SIZE > GPU_PAGE_SIZE
      ∨ g.nvfsio.gpu_page_offset >>> NVFS_BLOCK_SHIFT + nr
          > g.nvfs_blocks_count))

theorem getD_set_ne (l : List NvfsMeta) (i j : Nat) (a : NvfsMeta)
    (h : i ≠ j) : (l.set i a).getD j default = l.getD j default := by
  simp [List.getD_eq_getElem?_getD, List.getElem?_set_ne h]

theorem getD_set_self (l : List NvfsMeta) (i : Nat) (a : NvfsMeta)
    (h : i < l.length) : (l.set i a).getD i default = a := by
  simp [List.getD_eq_getElem?_getD, List.getElem?_set_self, h]

theorem mmapInsertLoop_fresh (reg : List Nat) (draws : Nat → Nat) :
    ∀ tries idx reg' k, 1 ≤ tries →
      mmapInsertLoop reg draws idx tries = some (reg', k) →
      reg.contains k = false ∧ reg' = k :: reg := by
  intro tries
  induction tries with
  | zero => intro idx reg' k h; exact absurd h (by omega)
  | succ t ih =>
    intro idx reg' k _ hloop
    rw [mmapInsertLoop] at hloop
    by_cases hc : reg.contains (draws idx)
    · simp only [hc, if_true] at hloop
      by_cases ht : t = 0
      · simp [ht] at hloop
      · simp only [ht, if_false] at hloop
        exact ih (idx + 1) reg' k (by omega) hloop
    · simp only [hc, if_false] at hloop
      obtain ⟨h1, h2⟩ := Prod.mk.injEq _ _ _ _ ▸ Option.some.injEq _ _ ▸ hloop
      constructor
      · rw [← h2]; exact Bool.of_not_eq_true hc
      · rw [← h1, ← h2]

theorem mmapInsertLoop_exhaust (reg : List Nat) (draws : Nat → Nat) :
    ∀ tries idx, 1 ≤ tries →
      (∀ j, j < tries → reg.contains (draws (idx + j)) = true) →
      mmapInsertLoop reg draws idx tries = none := by
  intro tries
  induction tries with
  | zero => intro idx h; exact absurd h (by omega)
  | succ t ih =>
    intro idx _ hall
    rw [mmapInsertLoop]
    have h0 : reg.contains (draws idx) = true := by
      have := hall 0 (by omega); simpa using this
    simp only [h0, if_true]
    by_cases ht : t = 0
    · simp [ht]
    · simp only [ht, if_false]
      exact ih (idx + 1) (by omega) (fun j hj => by
        have := hall (j + 1) (by omega)
        simpa [Nat.add_assoc, Nat.add_comm 1 j] using this)

theorem mmapInsertLoop_first_fresh (reg : List Nat) (draws : Nat → Nat) :
    ∀ tries idx k, k < tries →
      (∀ j, j < k → reg.contains (draws (idx + j)) = true) →
      reg.contains (draws (idx + k)) = false →
      mmapInsertLoop reg draws idx tries
        = some (draws (idx + k) :: reg, draws (idx + k)) := by
  intro tries
  induction tries with
  | zero => intro idx k hk; exact absurd hk (by omega)
  | succ t ih =>
    intro idx k hk hcoll hfresh
    rw [mmapInsertLoop]
    cases k with
    | zero =>
      have h0 : reg.contains (draws idx) = false := by simpa using hfresh
      simp only [h0, Bool.false_eq_true, if_false]
      simp
    | succ k' =>
      have h0 : reg.contains (draws idx) = true := by
        have := hcoll 0 (by omega); simpa using this
      simp only [h0, if_true]
      have ht : t ≠ 0 := by omega
      simp only [ht, if_false]
      have harg : idx + 1 + k' = idx + (k' + 1) := by omega
      have hres := ih (idx + 1) k' (by omega)
        (fun j hj => by
          have := hcoll (j + 1) (by omega)
          simpa [Nat.add_assoc, Nat.add_comm 1 j] using this)
        (by rw [harg]; exact hfresh)
      rw [harg] at hres
      exact hres

/-- C5: registry-key uniqueness of `nvfs_mgroup_mmap_internal`'s insertion
slice.  Starting from a registry without duplicate keys: a successful
insertion links exactly one new group whose key was not previously present
(so no two linked groups ever share a `base_index`) and whose reference
count is set to 1; when the first 10 random draws all collide the call
fails with `-ENOMEM` and the registry is unchanged; and a first fresh draw
at position `k < 10` (after `k` collisions) is the key that gets linked. -/
theorem c5_registry_insert (reg : List Nat) (draws : Nat → Nat)
    (hnd : reg.Nodup) :
    (∀ grp reg', nvfs_mgroup_mmap_insert reg draws = (Except.ok grp, reg') →
      reg'.Nodup ∧ grp.ref = 1 ∧ grp.key ∉ reg ∧ reg' = grp.key :: reg)
    ∧ ((∀ j, j < 10 → draws j ∈ reg) →
      nvfs_mgroup_mmap_insert reg draws = (Except.error cENOMEM, reg))
    ∧ (∀ k, k < 10 → (∀ j, j < k → draws j ∈ reg) → draws k ∉ reg →
      nvfs_mgroup_mmap_insert reg draws
        = (Except.ok ⟨draws k, 1⟩, draws k :: reg)) := by
  refine ⟨?_, ?_, ?_⟩
  · intro grp reg' h
    unfold nvfs_mgroup_mmap_insert at h
    rcases hl : mmapInsertLoop reg draws 0 10 with _ | ⟨reg'', k⟩
    · rw [hl] at h; simp at h
    · rw [hl] at h
      obtain ⟨hk, hregs⟩ := mmapInsertLoop_fresh reg draws 10 0 reg'' k
        (by omega) hl
      simp only [Prod.mk.injEq, Except.ok.injEq] at h
      obtain ⟨hgrp, hreg'⟩ := h
      have hkm : k ∉ reg := by simpa using hk
      refine ⟨?_, ?_, ?_, ?_⟩
      · rw [← hreg', hregs]; exact List.Nodup.cons hkm hnd
      · rw [← hgrp]
      · rw [← hgrp]; exact hkm
      · rw [← hgrp, ← hreg', hregs]
  · intro hall
    unfold nvfs_mgroup_mmap_insert
    rw [mmapInsertLoop_exhaust reg draws 10 0 (by omega)
      (fun j hj => by simpa using hall j hj)]
  · intro k hk hcoll hfresh
    unfold nvfs_mgroup_mmap_insert
    rw [mmapInsertLoop_first_fresh reg draws 10 0 k hk
      (fun j hj => by simpa using hcoll j hj)
      (by simpa using hfresh)]
    simp

/-- C5 witness: a concrete run with two collisions and a fresh third draw
links key 9 with reference count 1 into the registry `[5, 7]`. -/
theorem c5_registry_insert_witness :
    nvfs_mgroup_mmap_insert [5, 7] (fun i => if i < 3 then 5 else 9)
      = (Except.ok ⟨9, 1⟩, [9, 5, 7]) ∧ ([5, 7] : List Nat).Nodup := by
  constructor
  · have h := (c5_registry_insert [5, 7] (fun i => if i < 3 then 5 else 9)
      (by decide)).2.2 3 (by decide) (by decide) (by decide)
    simpa using h
  · decide

/-- C8: mapping-length validation.  `nvfs_mgroup_mmap_internal` rejects
with the negative error `-EINVAL`, before any group state is created,
every length larger than `NVFS_MAX_SHADOW_PAGES * PAGE_SIZE`, every
length below one accelerator page that is not a multiple of the 4096-byte
block size, and every length of at least one accelerator page that is not
a multiple of 65536; in particular lengths 5000 and 70000 are rejected. -/
theorem c8_mmap_length_validation (len : Nat)
    (h : NVFS_MAX_SHADOW_PAGES * PAGE_SIZE < len
      ∨ (len < GPU_PAGE_SIZE ∧ len % NVFS_BLOCK_SIZE ≠ 0)
      ∨ (GPU_PAGE_SIZE ≤ len ∧ len % GPU_PAGE_SIZE ≠ 0)) :
    nvfs_mgroup_mmap_length_check len = Except.error cEINVAL ∧ cEINVAL < 0
    ∧ nvfs_mgroup_mmap_length_check 5000 = Except.error cEINVAL
    ∧ nvfs_mgroup_mmap_length_check 70000 = Except.error cEINVAL := by
  refine ⟨?_, by decide, by rfl, by rfl⟩
  unfold nvfs_mgroup_mmap_length_check
  split_ifs with h1 h2 h3
  · rfl
  · rfl
  · rfl
  · exfalso
    rcases h with h | ⟨ha, hb⟩ | ⟨ha, hb⟩
    · exact h1 h
    · exact h2 ⟨ha, hb⟩
    · apply h3
      refine ⟨?_, hb⟩
      rcases Nat.lt_or_ge GPU_PAGE_SIZE len with hlt | hge
      · exact hlt
      · have heq : len = GPU_PAGE_SIZE := le_antisymm hge ha
        rw [heq] at hb
        exact absurd (Nat.mod_self _) hb

/-- C8 witness: length 5000 is rejected with `-EINVAL`. -/
theorem c8_mmap_length_validation_witness :
    nvfs_mgroup_mmap_length_check 5000 = Except.error cEINVAL :=
  (c8_mmap_length_validation 5000 (Or.inr (Or.inl (by decide)))).1

theorem initStateRange_length : ∀ (n : Nat) (ms : List NvfsMeta) (j : Nat),
    (initStateRange ms j n).length = ms.length := by
  intro n
  induction n with
  | zero => intro ms j; rfl
  | succ m ih =>
    intro ms j
    rw [initStateRange, ih]
    simp

theorem initStateRange_getD_out : ∀ (n : Nat) (ms : List NvfsMeta) (j k : Nat),
    k < j ∨ j + n ≤ k →
    (initStateRange ms j n).getD k default = ms.getD k default := by
  intro n
  induction n with
  | zero => intro ms j k _; rfl
  | succ m ih =>
    intro ms j k hk
    rw [initStateRange]
    rw [ih _ (j + 1) k (by omega)]
    exact getD_set_ne _ _ _ _ (by omega)

theorem initStateRange_getD_in : ∀ (n : Nat) (ms : List NvfsMeta) (j k : Nat),
    j ≤ k → k < j + n → k < ms.length →
    (initStateRange ms j n).getD k default
      = { ms.getD k default with nvfs_state := NvfsIoState.INIT } := by
  intro n
  induction n with
  | zero => intro ms j k h1 h2; omega
  | succ m ih =>
    intro ms j k h1 h2 hlen
    rw [initStateRange]
    by_cases hjk : k = j
    · subst hjk
      rw [initStateRange_getD_out _ _ _ _ (by omega)]
      exact getD_set_self _ _ _ hlen
    · rw [ih _ (j + 1) k (by omega) (by omega) (by simpa using hlen)]
      rw [getD_set_ne _ _ _ _ (by omega)]

theorem fill_mpage_some_facts (page : Nat) (m m' : NvfsMeta)
    (h : nvfs_mgroup_fill_mpage page m = some m') :
    (m.nvfs_state = NvfsIoState.INIT ∨ m.nvfs_state = NvfsIoState.DONE)
    ∧ m' = { m with nvfs_state := NvfsIoState.QUEUED }
    ∧ m.folio ≠ none := by
  unfold nvfs_mgroup_fill_mpage at h
  rcases hf : m.folio with _ | f
  · rw [hf] at h; simp at h
  · rw [hf] at h
    by_cases h1 : m.nvfs_start_magic ≠ NVFS_START_MAGIC
    · simp [h1] at h
    · simp only [h1, if_false] at h
      by_cases h2 : m.nvfs_state ≠ NvfsIoState.INIT
          ∧ m.nvfs_state ≠ NvfsIoState.DONE
      · simp [h2] at h
      · simp only [h2, if_false] at h
        by_cases h3 : folioPage f (m.folio_offset / PAGE_SIZE) ≠ page
        · simp [h3] at h
        · simp only [h3, if_false, Option.some.injEq] at h
          refine ⟨?_, h.symm, by simp [hf]⟩
          rcases Decidable.em (m.nvfs_state = NvfsIoState.INIT) with hi | hi
          · exact Or.inl hi
          · exact Or.inr (by tauto)

theorem queueStateRange_some : ∀ (n : Nat) (folios : List (Option NvfsFolio))
    (ms : List NvfsMeta) (j : Nat) (ms' : List NvfsMeta),
    queueStateRange folios ms j n = some ms' →
    ms'.length = ms.length
    ∧ (∀ k, k < j ∨ j + n ≤ k → ms'.getD k default = ms.getD k default)
    ∧ (∀ k, j ≤ k → k < j + n →
        ((ms.getD k default).nvfs_state = NvfsIoState.INIT
          ∨ (ms.getD k default).nvfs_state = NvfsIoState.DONE)
        ∧ ms'.getD k default
          = { ms.getD k default with nvfs_state := NvfsIoState.QUEUED }) := by
  intro n
  induction n with
  | zero =>
    intro folios ms j ms' h
    rw [queueStateRange] at h
    simp only [Option.some.injEq] at h
    subst h
    exact ⟨rfl, fun _ _ => rfl, fun k h1 h2 => by omega⟩
  | succ m ih =>
    intro folios ms j ms' h
    rw [queueStateRange] at h
    rcases hf : folios.getD (j / (GPU_PAGE_SIZE / NVFS_BLOCK_SIZE)) none
      with _ | f
    · rw [hf] at h; simp at h
    · rw [hf] at h
      dsimp only at h
      rcases hm : nvfs_mgroup_fill_mpage
          (folioPage f ((j % (GPU_PAGE_SIZE / NVFS_BLOCK_SIZE))
            / (PAGE_SIZE / NVFS_BLOCK_SIZE)))
          (ms.getD j default) with _ | mq
      · rw [hm] at h; simp at h
      · rw [hm] at h
        obtain ⟨hst, hmq, hfol⟩ := fill_mpage_some_facts _ _ _ hm
        have hjlen : j < ms.length := by
          by_contra hge
          have : ms.getD j default = default := by
            rw [List.getD_eq_getElem?_getD]
            rw [List.getElem?_eq_none (by omega)]
            rfl
          rw [this] at hfol
          exact hfol rfl
        obtain ⟨ihlen, ihout, ihin⟩ := ih folios (ms.set j mq) (j + 1) ms' h
        refine ⟨by rw [ihlen]; simp, ?_, ?_⟩
        · intro k hk
          rw [ihout k (by omega)]
          exact getD_set_ne _ _ _ _ (by omega)
        · intro k hk1 hk2
          by_cases hkj : k = j
          · subst hkj
            refine ⟨hst, ?_⟩
            rw [ihout k (by omega), getD_set_self _ _ _ hjlen, hmq]
          · obtain ⟨ha, hb⟩ := ihin k (by omega) (by omega)
            rw [getD_set_ne _ _ _ _ (by omega)] at ha hb
            exact ⟨ha, hb⟩

theorem fillChecks_none_iff (g : NvfsMgroup) (nr : Nat) :
    fillChecks g nr = none ↔
    g.nvfsio.gpu_page_offset ≠ 0
    ∧ (g.nvfsio.gpu_page_offset > GPU_PAGE_SIZE - KiB4
      ∨ g.nvfsio.gpu_page_offset % KiB4 ≠ 0
      ∨ g.nvfsio.gpu_page_offset + nr * NVFS_BLOCK_SIZE > GPU_PAGE_SIZE
      ∨ g.nvfsio.gpu_page_offset >>> NVFS_BLOCK_SHIFT + nr
          > g.nvfs_blocks_count) := by
  unfold fillChecks
  dsimp only
  split_ifs with h1 h2 h3 h4 h5 <;> simp_all

theorem fillChecks_some_val (g : NvfsMgroup) (nr : Nat) (b : Nat)
    (h : fillChecks g nr = some b) :
    b = g.nvfsio.gpu_page_offset >>> NVFS_BLOCK_SHIFT := by
  unfold fillChecks at h
  dsimp only at h
  by_cases h1 : g.nvfsio.gpu_page_offset ≠ 0
  · rw [if_pos h1] at h
    split_ifs at h with h2 h3 h4 h5 <;> simp_all
  · rw [if_neg h1] at h
    simp only [Option.some.injEq] at h
    have h0 : g.nvfsio.gpu_page_offset = 0 := by
      by_contra hc; exact h1 hc
    rw [← h, h0]
    simp [Nat.shiftRight_eq_div_pow]

theorem fillChecks_some_bound (g : NvfsMgroup) (nr : Nat) (b : Nat)
    (h : fillChecks g nr = some b) (ho : g.nvfsio.gpu_page_offset ≠ 0) :
    b + nr ≤ g.nvfs_blocks_count := by
  unfold fillChecks at h
  dsimp only at h
  rw [if_pos ho] at h
  split_ifs at h with h2 h3 h4 h5 <;> simp_all

theorem fill_mpages_eio_spec (g : NvfsMgroup) (nr : Nat)
    (h : (nvfs_mgroup_fill_mpages g nr).1 = FillRes.eio) :
    nvfs_mgroup_fill_mpages g nr = (FillRes.eio, g) := by
  unfold nvfs_mgroup_fill_mpages at h ⊢
  dsimp only at h ⊢
  by_cases h1 : nr > g.nvfs_blocks_count
  · rw [if_pos h1]
  · rw [if_neg h1] at h ⊢
    rcases hc : fillChecks g nr with _ | b
    · rfl
    · rw [hc] at h
      dsimp only at h ⊢
      rcases hq : queueStateRange g.nvfs_folios
          (if g.nvfsio.gpu_page_offset ≠ 0 then
            initStateRange g.nvfs_metadata 0 b else g.nvfs_metadata) b nr
          with _ | ms1
      · rw [hq] at h; simp at h
      · rw [hq] at h; simp at h

theorem fill_mpages_eio_iff (g : NvfsMgroup) (nr : Nat) :
    (nvfs_mgroup_fill_mpages g nr).1 = FillRes.eio ↔ fillEioCond g nr := by
  constructor
  · intro h
    unfold nvfs_mgroup_fill_mpages at h
    dsimp only at h
    by_cases h1 : nr > g.nvfs_blocks_count
    · exact Or.inl h1
    · rw [if_neg h1] at h
      rcases hc : fillChecks g nr with _ | b
      · exact Or.inr ((fillChecks_none_iff g nr).mp hc)
      · rw [hc] at h
        dsimp only at h
        rcases hq : queueStateRange g.nvfs_folios
            (if g.nvfsio.gpu_page_offset ≠ 0 then
              initStateRange g.nvfs_metadata 0 b else g.nvfs_metadata) b nr
            with _ | ms1
        · rw [hq] at h; simp at h
        · rw [hq] at h; simp at h
  · intro h
    unfold nvfs_mgroup_fill_mpages
    dsimp only
    by_cases h1 : nr > g.nvfs_blocks_count
    · rw [if_pos h1]
    · rw [if_neg h1]
      rcases h with h | h
      · omega
      · rw [(fillChecks_none_iff g nr).mpr h]

theorem fill_mpages_ok_spec (g : NvfsMgroup) (nr : Nat)
    (h : (nvfs_mgroup_fill_mpages g nr).1 = FillRes.ok) :
    ¬ nr > g.nvfs_blocks_count ∧
    ∃ b ms1, fillChecks g nr = some b
      ∧ queueStateRange g.nvfs_folios
          (if g.nvfsio.gpu_page_offset ≠ 0 then
            initStateRange g.nvfs_metadata 0 b else g.nvfs_metadata) b nr
          = some ms1
      ∧ (nvfs_mgroup_fill_mpages g nr).2
        = { g with
            nvfs_metadata := initStateRange ms1 (b + nr)
              (g.nvfs_blocks_count - (b + nr)),
            nvfsio := { g.nvfsio with
              nvfs_active_blocks_start := b,
              nvfs_active_blocks_end :=
                if b + nr > 0 then b + nr - 1 else 0,
              cpuvaddr := g.nvfsio.cpuvaddr + (b <<< NVFS_BLOCK_SHIFT) } } := by
  unfold nvfs_mgroup_fill_mpages at h ⊢
  dsimp only at h ⊢
  by_cases h1 : nr > g.nvfs_blocks_count
  · rw [if_pos h1] at h; simp at h
  · rw [if_neg h1] at h ⊢
    refine ⟨h1, ?_⟩
    rcases hc : fillChecks g nr with _ | b
    · rw [hc] at h; simp at h
    · rw [hc] at h
      dsimp only at h ⊢
      rcases hq : queueStateRange g.nvfs_folios
          (if g.nvfsio.gpu_page_offset ≠ 0 then
            initStateRange g.nvfs_metadata 0 b else g.nvfs_metadata) b nr
          with _ | ms1
      · rw [hq] at h; simp at h
      · exact ⟨b, ms1, rfl, hq, rfl⟩

/-- C10: whenever `nvfs_mgroup_fill_mpages` returns `-EIO` (block count
exceeding the group's, a misaligned or too-large `gpu_page_offset`, or a
range that does not fit the accelerator page or the group), the group is
returned unchanged: no block metadata and no descriptor field
(`nvfs_active_blocks_start/end`, `cpuvaddr`) has been modified. -/
theorem c10_fill_mpages_eio_unchanged (g : NvfsMgroup) (nr : Nat)
    (h : (nvfs_mgroup_fill_mpages g nr).1 = FillRes.eio) :
    (nvfs_mgroup_fill_mpages g nr).2 = g := by
  rw [fill_mpages_eio_spec g nr h]

/-- C10 witness: requesting 18 blocks of a 17-block group fails with
`-EIO` and leaves the group exactly as it was. -/
theorem c10_fill_mpages_eio_unchanged_witness :
    (nvfs_mgroup_fill_mpages egInit17 18).1 = FillRes.eio
    ∧ (nvfs_mgroup_fill_mpages egInit17 18).2 = egInit17 :=
  ⟨by decide, c10_fill_mpages_eio_unchanged egInit17 18 (by decide)⟩

/-- C6 (amended): for every successful call (result 0) of
`nvfs_mgroup_fill_mpages` with `nr ≥ 1` and pending offset `o`, letting
`b0 = o / 4096`, blocks `b0 .. b0 + nr - 1` are QUEUED, every other block
of the group is INIT, and the active range is exactly
`[b0, b0 + nr - 1]`; and the call fails with `-EIO` exactly when `nr`
exceeds the group's block count or when `o` is NON-ZERO and is misaligned,
exceeds 60 KiB, spills past the 64 KiB accelerator page, or makes the
block range exceed the group (with `o = 0` the accelerator-page fit
checks are skipped). -/
theorem c6_queue_blocks (g : NvfsMgroup) (nr : Nat)
    (hwf : g.nvfs_metadata.length = g.nvfs_blocks_count) (hnr : 1 ≤ nr) :
    ((nvfs_mgroup_fill_mpages g nr).1 = FillRes.ok →
      (∀ i, i < g.nvfs_blocks_count →
        (((nvfs_mgroup_fill_mpages g nr).2.nvfs_metadata.getD i default).nvfs_state
          = if g.nvfsio.gpu_page_offset / NVFS_BLOCK_SIZE ≤ i
              ∧ i < g.nvfsio.gpu_page_offset / NVFS_BLOCK_SIZE + nr
            then NvfsIoState.QUEUED else NvfsIoState.INIT))
      ∧ (nvfs_mgroup_fill_mpages g nr).2.nvfsio.nvfs_active_blocks_start
          = g.nvfsio.gpu_page_offset / NVFS_BLOCK_SIZE
      ∧ (nvfs_mgroup_fill_mpages g nr).2.nvfsio.nvfs_active_blocks_end
          = g.nvfsio.gpu_page_offset / NVFS_BLOCK_SIZE + nr - 1)
    ∧ ((nvfs_mgroup_fill_mpages g nr).1 = FillRes.eio ↔ fillEioCond g nr) := by
  have hsh : g.nvfsio.gpu_page_offset >>> NVFS_BLOCK_SHIFT
      = g.nvfsio.gpu_page_offset / NVFS_BLOCK_SIZE := by
    rw [Nat.shiftRight_eq_div_pow]; rfl
  refine ⟨?_, fill_mpages_eio_iff g nr⟩
  intro hok
  obtain ⟨hle, b, ms1, hc, hq, hres⟩ := fill_mpages_ok_spec g nr hok
  have hb : b = g.nvfsio.gpu_page_offset / NVFS_BLOCK_SIZE := by
    rw [fillChecks_some_val g nr b hc, hsh]
  obtain ⟨hqlen, hqout, hqin⟩ := queueStateRange_some nr g.nvfs_folios _ b ms1 hq
  have hms0len : (if g.nvfsio.gpu_page_offset ≠ 0 then
      initStateRange g.nvfs_metadata 0 b else g.nvfs_metadata).length
      = g.nvfs_blocks_count := by
    split_ifs
    · rw [initStateRange_length, hwf]
    · exact hwf
  have hbnr : b + nr ≤ g.nvfs_blocks_count := by
    by_cases ho : g.nvfsio.gpu_page_offset = 0
    · have hb0 : b = 0 := by rw [hb, ho]; simp
      omega
    · exact fillChecks_some_bound g nr b hc ho
  rw [hres, ← hb]
  dsimp only
  refine ⟨?_, rfl, by rw [if_pos (by omega : b + nr > 0)]⟩
  intro i hi
  by_cases hcase : b ≤ i ∧ i < b + nr
  · rw [if_pos hcase]
    rw [initStateRange_getD_out _ _ _ _ (by omega)]
    obtain ⟨_, hqi⟩ := hqin i hcase.1 hcase.2
    rw [hqi]
  · rw [if_neg hcase]
    by_cases hlow : i < b
    · have ho : g.nvfsio.gpu_page_offset ≠ 0 := by
        intro h0
        rw [h0] at hb
        simp at hb
        omega
      rw [initStateRange_getD_out _ _ _ _ (by omega)]
      rw [hqout i (Or.inl hlow)]
      rw [if_pos ho]
      rw [initStateRange_getD_in b g.nvfs_metadata 0 i (by omega) (by omega)
          (by omega)]
    · rw [initStateRange_getD_in _ _ _ _ (by omega) (by omega)
          (by rw [hqlen, hms0len]; omega)]

theorem sparse_region_mpages (aS mh i : Int) (st : CasLoopSt) (r : Int)
    (st' : CasLoopSt)
    (h : nvfs_handle_sparse_read_region aS mh i st = some (r, st')) :
    st'.mpages = st.mpages := by
  unfold nvfs_handle_sparse_read_region at h
  have hst1 : ((if st.sparseMapped = false then
      { st with check_sparse := true, sparseMapped := true } else st) :
      CasLoopSt).mpages = st.mpages := by
    split_ifs <;> rfl
  dsimp only at h
  split_ifs at h <;>
    simp only [Option.some.injEq, Prod.mk.injEq] at h <;>
    obtain ⟨-, h2⟩ := h <;>
    rw [← h2] <;>
    exact hst1

theorem done_validation_mpages (op : IoOp) (aS mh : Int) (validate : Bool)
    (i ld : Int) (st : CasLoopSt) (r : Int) (st' : CasLoopSt)
    (h : nvfs_handle_done_block_validation op aS mh validate i ld st
      = some (r, st')) :
    st'.mpages = st.mpages := by
  unfold nvfs_handle_done_block_validation at h
  split_ifs at h <;>
    first
    | (simp only [Option.some.injEq, Prod.mk.injEq] at h
       obtain ⟨-, h2⟩ := h
       rw [← h2])
    | (rcases hr : nvfs_handle_sparse_read_region aS mh i st
          with _ | ⟨r1, st1⟩
       · rw [hr] at h; simp at h
       · rw [hr] at h
         dsimp only at h
         have hm := sparse_region_mpages aS mh i st r1 st1 hr
         split_ifs at h <;>
           simp only [Option.some.injEq, Prod.mk.injEq] at h <;>
           obtain ⟨-, h2⟩ := h <;> rw [← h2] <;> exact hm)

theorem casStep_done_spec (validate : Bool) (op : IoOp)
    (aS aE ld mh retF : Int) (iI : Bool) (i : Int) (st st' : CasLoopSt)
    (hns : retF ≠ cERESTARTSYS)
    (h : casStep NvfsIoState.DONE validate op aS aE ld mh retF iI false i st
      = some st') :
    st'.mpages.length = st.mpages.length
    ∧ (∀ j : Nat, j ≠ i.toNat →
        st'.mpages.getD j default = st.mpages.getD j default)
    ∧ (aS ≤ i → i ≤ aE → i.toNat < st.mpages.length →
        st'.mpages.getD i.toNat default
          = { st.mpages.getD i.toNat default
              with nvfs_state := NvfsIoState.DONE }) := by
  unfold casStep at h
  dsimp only at h
  have hskip : ¬(NvfsIoState.DONE = NvfsIoState.DONE ∧ (aS ≤ i ∧ i ≤ aE)
      ∧ ((¬(iI = true) ∧ (false : Bool) = true) ∨ retF = cERESTARTSYS)) := by
    rintro ⟨-, -, ⟨-, hff⟩ | hrs⟩
    · simp at hff
    · exact hns hrs
  by_cases hin : aS ≤ i ∧ i ≤ aE
  · rw [if_pos hin] at h
    rcases hd : nvfs_handle_done_block_validation op aS mh validate i ld st
        with _ | ⟨r, st1⟩
    · rw [hd] at h; simp at h
    · rw [hd] at h
      dsimp only at h
      have hm := done_validation_mpages op aS mh validate i ld st r st1 hd
      by_cases hr1 : r > 0
      · rw [if_pos hr1] at h
        dsimp only at h
        rw [if_neg (by simp), if_neg hskip, hm] at h
        simp only [Option.some.injEq] at h
        rw [← h]
        dsimp only
        refine ⟨by simp, fun j hj => getD_set_ne _ _ _ _ (Ne.symm hj),
          fun _ _ hlen => getD_set_self _ _ _ hlen⟩
      · rw [if_neg hr1] at h
        by_cases hr2 : r < 0
        · rw [if_pos hr2] at h
          dsimp only at h
          rw [if_neg (by simp), if_neg hskip, hm] at h
          simp only [Option.some.injEq] at h
          rw [← h]
          dsimp only
          refine ⟨by simp, fun j hj => getD_set_ne _ _ _ _ (Ne.symm hj),
            fun _ _ hlen => getD_set_self _ _ _ hlen⟩
        · rw [if_neg hr2] at h
          dsimp only at h
          rw [if_neg (by simp), if_neg hskip, hm] at h
          simp only [Option.some.injEq] at h
          rw [← h]
          dsimp only
          refine ⟨by simp, fun j hj => getD_set_ne _ _ _ _ (Ne.symm hj),
            fun _ _ hlen => getD_set_self _ _ _ hlen⟩
  · rw [if_neg hin] at h
    by_cases hv : validate = true ∧ st.stateAt i ≠ NvfsIoState.INIT
    · rw [if_pos hv] at h
      simp at h
    · rw [if_neg hv] at h
      dsimp only at h
      rw [if_pos rfl] at h
      simp only [Option.some.injEq] at h
      cases h
      exact ⟨rfl, fun j _ => rfl, fun ha hb _ => absurd ⟨ha, hb⟩ hin⟩

theorem casLoop_done_spec (validate : Bool) (op : IoOp)
    (aS aE ld mh retF : Int) (iI : Bool)
    (hns : retF ≠ cERESTARTSYS) :
    ∀ (fuel : Nat) (i : Int) (st st' : CasLoopSt),
      0 ≤ i →
      casLoop NvfsIoState.DONE validate op aS aE ld mh retF iI false fuel i st
        = some st' →
      st'.mpages.length = st.mpages.length
      ∧ (∀ j : Nat, (j : Int) < i ∨ i + fuel ≤ (j : Int) →
          st'.mpages.getD j default = st.mpages.getD j default)
      ∧ (∀ j : Nat, i ≤ (j : Int) → (j : Int) < i + fuel →
          aS ≤ (j : Int) → (j : Int) ≤ aE → j < st.mpages.length →
          (st'.mpages.getD j default).nvfs_state = NvfsIoState.DONE) := by
  intro fuel
  induction fuel with
  | zero =>
    intro i st st' hi h
    rw [casLoop] at h
    simp only [Option.some.injEq] at h
    cases h
    exact ⟨rfl, fun j _ => rfl, fun j h1 h2 => by omega⟩
  | succ f ih =>
    intro i st st' hi h
    rw [casLoop] at h
    rcases hs : casStep NvfsIoState.DONE validate op aS aE ld mh retF iI
        false i st with _ | st1
    · rw [hs] at h; simp at h
    · rw [hs] at h
      obtain ⟨slen, sne, sset⟩ :=
        casStep_done_spec validate op aS aE ld mh retF iI i st st1 hns hs
      obtain ⟨llen, lout, lin⟩ := ih (i + 1) st1 st' (by omega) h
      refine ⟨by rw [llen, slen], ?_, ?_⟩
      · intro j hj
        rw [lout j (by omega)]
        exact sne j (by omega)
      · intro j h1 h2 h3 h4 h5
        by_cases hji : (j : Int) = i
        · have hjn : j = i.toNat := by omega
          have hset := sset (by omega) (by omega) (by omega)
          rw [lout j (by omega), hjn, hset]
        · exact lin j (by omega) (by omega) h3 h4 (by omega)

theorem casRun_done_spec (g : NvfsMgroup) (iI : Bool) (maxHoles : Int)
    (u : Bool) (st : CasLoopSt)
    (hns : g.nvfsio.ret ≠ cERESTARTSYS)
    (h : casRun g NvfsIoState.DONE u iI false maxHoles = some st) :
    ∀ j : Nat, g.nvfsio.nvfs_active_blocks_start ≤ j →
      j ≤ g.nvfsio.nvfs_active_blocks_end → j < g.nvfs_metadata.length →
      (st.mpages.getD j default).nvfs_state = NvfsIoState.DONE := by
  intro j h1 h2 h3
  unfold casRun at h
  dsimp only at h
  obtain ⟨-, -, lin⟩ := casLoop_done_spec u g.nvfsio.op
    (g.nvfsio.nvfs_active_blocks_start : Int)
    (g.nvfsio.nvfs_active_blocks_end : Int)
    (casLastDone g NvfsIoState.DONE u) maxHoles g.nvfsio.ret iI hns
    _ _ _ _ (by unfold casCur; simp) h
  apply lin j
  · unfold casCur
    rw [if_neg (by decide)]
    omega
  · unfold casCur casLast
    rw [if_neg (by decide), if_neg (by decide)]
    omega
  · omega
  · omega
  · exact h3

/-- C1 (amended): for every completion reconciliation
(`nvfs_mgroup_check_and_set` with target DONE, validation enabled, the
process not exiting and the operation not interrupted) that completes
without an assertion abort, EVERY block of the active range — including
every block with index greater than `last_done_block` when
`done_blocks < issued_blocks` — ends in state DONE; blocks issued but
never reached are advanced to DONE like the rest, not left at INIT. -/
theorem c1_reconcile_active_blocks_done (g : NvfsMgroup) (maxHoles : Int)
    (u iI : Bool) (j : Nat)
    (hok : casOk (nvfs_mgroup_check_and_set g NvfsIoState.DONE true u iI false
      maxHoles) = true)
    (hlen : g.nvfsio.nvfs_active_blocks_end < g.nvfs_metadata.length)
    (hj1 : g.nvfsio.nvfs_active_blocks_start ≤ j)
    (hj2 : j ≤ g.nvfsio.nvfs_active_blocks_end) :
    casStateAt (nvfs_mgroup_check_and_set g NvfsIoState.DONE true u iI false
      maxHoles) j = some NvfsIoState.DONE := by
  unfold casOk at hok
  unfold casStateAt
  unfold nvfs_mgroup_check_and_set at hok ⊢
  dsimp only at hok ⊢
  by_cases hpre : (true : Bool) = true ∧ NvfsIoState.DONE = NvfsIoState.DONE
      ∧ (g.nvfsio.ret < 0 ∨ g.nvfsio.ret > (g.nvfsio.length : Int))
  · rw [if_pos hpre] at hok
    simp at hok
  · rw [if_neg hpre] at hok ⊢
    have hns : g.nvfsio.ret ≠ cERESTARTSYS := by
      intro hc
      apply hpre
      refine ⟨rfl, rfl, Or.inl ?_⟩
      rw [hc]
      unfold cERESTARTSYS
      omega
    rcases hl : casRun g NvfsIoState.DONE true iI false maxHoles with _ | stf
    · rw [hl] at hok; simp at hok
    · dsimp only
      have hdone := casRun_done_spec g iI maxHoles true stf hns hl j hj1 hj2
        (by omega)
      rw [List.getD_eq_getElem?_getD] at hdone
      simp [hdone]

/-- C1 witness: the 10-block example completes and block 6 ends at DONE. -/
theorem c1_reconcile_active_blocks_done_witness :
    casStateAt (nvfs_mgroup_check_and_set egShortRead NvfsIoState.DONE true true
      false false 512) 6 = some NvfsIoState.DONE :=
  c1_reconcile_active_blocks_done egShortRead 512 true false 6 (by decide)
    (by decide) (by decide) (by decide)

theorem setDmaLoop_ok : ∀ (fuel : Nat) (i : Nat) (g : NvfsMgroup),
    (∀ k, i ≤ k → k < i + fuel →
      (g.nvfs_metadata.getD k default).nvfs_state = NvfsIoState.QUEUED
      ∨ (g.nvfs_metadata.getD k default).nvfs_state = NvfsIoState.DMA_START) →
    (setDmaLoop g i fuel).1 = 0
    ∧ (setDmaLoop g i fuel).2.ref = g.ref
    ∧ (∀ k, i ≤ k → k < i + fuel →
        ((setDmaLoop g i fuel).2.nvfs_metadata.getD k default).nvfs_state
          = NvfsIoState.DMA_START)
    ∧ (∀ k, k < i ∨ i + fuel ≤ k →
        (setDmaLoop g i fuel).2.nvfs_metadata.getD k default
          = g.nvfs_metadata.getD k default) := by
  intro fuel
  induction fuel with
  | zero =>
    intro i g _
    exact ⟨rfl, rfl, fun k h1 h2 => by omega, fun k _ => rfl⟩
  | succ f ih =>
    intro i g h
    have hm := h i (le_refl i) (by omega)
    rw [setDmaLoop]
    dsimp only
    rw [if_neg (by tauto)]
    by_cases hq : (g.nvfs_metadata.getD i default).nvfs_state
        = NvfsIoState.QUEUED
    · have hilen : i < g.nvfs_metadata.length := by
        by_contra hge
        have hd : g.nvfs_metadata.getD i default = default := by
          rw [List.getD_eq_getElem?_getD, List.getElem?_eq_none (by omega)]
          rfl
        rw [hd] at hq
        simp at hq
      rw [if_pos hq]
      set mq : NvfsMeta :=
        { g.nvfs_metadata.getD i default with
          nvfs_state := NvfsIoState.DMA_START } with hmq
      have hsh : ∀ k, i + 1 ≤ k → k < i + 1 + f →
          (((g.nvfs_metadata.set i mq).getD k default).nvfs_state
            = NvfsIoState.QUEUED
          ∨ ((g.nvfs_metadata.set i mq).getD k default).nvfs_state
            = NvfsIoState.DMA_START) := by
        intro k h1 h2
        rw [getD_set_ne _ _ _ _ (by omega)]
        exact h k (by omega) (by omega)
      obtain ⟨i1, i2, i3, i4⟩ := ih (i + 1)
        { g with nvfs_metadata := g.nvfs_metadata.set i mq } hsh
      dsimp only at i2 i3 i4
      refine ⟨i1, by rw [i2], ?_, ?_⟩
      · intro k h1 h2
        by_cases hk : k = i
        · subst hk
          rw [i4 k (by omega), getD_set_self _ _ _ hilen, hmq]
        · exact i3 k (by omega) (by omega)
      · intro k hk
        rw [i4 k (by omega), getD_set_ne _ _ _ _ (by omega)]
    · have hds : (g.nvfs_metadata.getD i default).nvfs_state
          = NvfsIoState.DMA_START := by tauto
      rw [if_neg hq]
      have hsh : ∀ k, i + 1 ≤ k → k < i + 1 + f →
          ((g.nvfs_metadata.getD k default).nvfs_state = NvfsIoState.QUEUED
          ∨ (g.nvfs_metadata.getD k default).nvfs_state
            = NvfsIoState.DMA_START) :=
        fun k h1 h2 => h k (by omega) (by omega)
      obtain ⟨i1, i2, i3, i4⟩ := ih (i + 1) g hsh
      refine ⟨i1, i2, ?_, ?_⟩
      · intro k h1 h2
        by_cases hk : k = i
        · subst hk
          rw [i4 k (by omega), hds]
        · exact i3 k (by omega) (by omega)
      · intro k hk
        exact i4 k (by omega)

theorem setDmaLoop_err : ∀ (fuel : Nat) (i : Nat) (g : NvfsMgroup) (k0 : Nat),
    i ≤ k0 → k0 < i + fuel → k0 < g.nvfs_metadata.length →
    (∀ k, i ≤ k → k < k0 →
      (g.nvfs_metadata.getD k default).nvfs_state = NvfsIoState.QUEUED
      ∨ (g.nvfs_metadata.getD k default).nvfs_state = NvfsIoState.DMA_START) →
    (g.nvfs_metadata.getD k0 default).nvfs_state ≠ NvfsIoState.QUEUED →
    (g.nvfs_metadata.getD k0 default).nvfs_state ≠ NvfsIoState.DMA_START →
    (setDmaLoop g i fuel).1 = cEIO
    ∧ (setDmaLoop g i fuel).2.ref = g.ref - 1
    ∧ ((setDmaLoop g i fuel).2.nvfs_metadata.getD k0 default).nvfs_state
        = NvfsIoState.DMA_ERROR
    ∧ (∀ k, i ≤ k → k < k0 →
        ((setDmaLoop g i fuel).2.nvfs_metadata.getD k default).nvfs_state
          = NvfsIoState.DMA_START)
    ∧ (∀ k, k < i ∨ k0 < k →
        (setDmaLoop g i fuel).2.nvfs_metadata.getD k default
          = g.nvfs_metadata.getD k default) := by
  intro fuel
  induction fuel with
  | zero => intro i g k0 h1 h2; omega
  | succ f ih =>
    intro i g k0 hk1 hk2 hklen hgood hbad1 hbad2
    rw [setDmaLoop]
    dsimp only
    by_cases hki : k0 = i
    · subst hki
      rw [if_pos ⟨hbad1, hbad2⟩]
      refine ⟨rfl, rfl, ?_, fun k ha hb => by omega, ?_⟩
      · dsimp only
        rw [getD_set_self _ _ _ hklen]
      · intro k hk
        dsimp only
        rw [getD_set_ne _ _ _ _ (by omega)]
    · have hmi := hgood i (le_refl i) (by omega)
      rw [if_neg (by tauto)]
      by_cases hq : (g.nvfs_metadata.getD i default).nvfs_state
          = NvfsIoState.QUEUED
      · rw [if_pos hq]
        set mq : NvfsMeta :=
          { g.nvfs_metadata.getD i default with
            nvfs_state := NvfsIoState.DMA_START } with hmq
        have hilen : i < g.nvfs_metadata.length := by omega
        have hpres : ∀ k, k ≠ i →
            (g.nvfs_metadata.set i mq).getD k default
              = g.nvfs_metadata.getD k default :=
          fun k hk => getD_set_ne _ _ _ _ (Ne.symm hk)
        obtain ⟨i1, i2, i3, i4, i5⟩ := ih (i + 1)
          { g with nvfs_metadata := g.nvfs_metadata.set i mq } k0
          (by omega) (by omega) (by simpa using hklen)
          (fun k ha hb => by rw [hpres k (by omega)]; exact hgood k (by omega) hb)
          (by rw [hpres k0 (by omega)]; exact hbad1)
          (by rw [hpres k0 (by omega)]; exact hbad2)
        dsimp only at i1 i2 i3 i4 i5
        refine ⟨i1, by rw [i2], i3, ?_, ?_⟩
        · intro k ha hb
          by_cases hk : k = i
          · subst hk
            rw [i5 k (by omega), getD_set_self _ _ _ hilen, hmq]
          · exact i4 k (by omega) hb
        · intro k hk
          rw [i5 k (by omega), hpres k (by omega)]
      · have hds : (g.nvfs_metadata.getD i default).nvfs_state
            = NvfsIoState.DMA_START := by tauto
        rw [if_neg hq]
        obtain ⟨i1, i2, i3, i4, i5⟩ := ih (i + 1) g k0
          (by omega) (by omega) hklen
          (fun k ha hb => hgood k (by omega) hb) hbad1 hbad2
        refine ⟨i1, i2, i3, ?_, ?_⟩
        · intro k ha hb
          by_cases hk : k = i
          · subst hk
            rw [i5 k (by omega), hds]
          · exact i4 k (by omega) hb
        · intro k hk
          exact i5 k (by omega)

theorem fprContiguityBad_state_l (m mp : NvfsMeta) (s : NvfsIoState) :
    fprContiguityBad { m with nvfs_state := s } mp = fprContiguityBad m mp :=
  rfl

theorem fprContiguityBad_state_r (m mp : NvfsMeta) (s : NvfsIoState) :
    fprContiguityBad m { mp with nvfs_state := s } = fprContiguityBad m mp :=
  rfl

theorem fprLoop_ok : ∀ (fuel : Nat) (fidx bidx nblocks i : Nat)
    (g : NvfsMgroup) (lastPtr : Option Nat),
    (∀ t, t < fuel → fprRangeOk fidx g (i + t) = true) →
    (∀ t, t < fuel →
      (g.nvfs_metadata.getD (bidx + i + t) default).nvfs_state
        = NvfsIoState.QUEUED
      ∨ (g.nvfs_metadata.getD (bidx + i + t) default).nvfs_state
        = NvfsIoState.DMA_START) →
    (∀ kp, lastPtr = some kp → 0 < fuel →
      fprContiguityBad (g.nvfs_metadata.getD (bidx + i) default)
        (g.nvfs_metadata.getD kp default) = false) →
    (∀ t, 0 < t → t < fuel →
      fprContiguityBad (g.nvfs_metadata.getD (bidx + i + t) default)
        (g.nvfs_metadata.getD (bidx + i + t - 1) default) = false) →
    ∃ g2, fprLoop fidx bidx nblocks g lastPtr i fuel = FprOut.ok g2
      ∧ g2.ref = g.ref
      ∧ (∀ t, t < fuel →
          (g2.nvfs_metadata.getD (bidx + i + t) default).nvfs_state
            = NvfsIoState.DMA_START)
      ∧ (∀ k, k < bidx + i ∨ bidx + i + fuel ≤ k →
          g2.nvfs_metadata.getD k default
            = g.nvfs_metadata.getD k default) := by
  intro fuel
  induction fuel with
  | zero =>
    intro fidx bidx nblocks i g lastPtr _ _ _ _
    exact ⟨g, rfl, rfl, fun t ht => by omega, fun k _ => rfl⟩
  | succ f ih =>
    intro fidx bidx nblocks i g lastPtr hrange hstate hcont0 hcont
    rw [fprLoop]
    dsimp only
    have hr0 : ¬((fidx + i / (PAGE_SIZE / NVFS_BLOCK_SIZE))
        % NVFS_MAX_SHADOW_PAGES
        > g.nvfsio.nvfs_active_blocks_end / (PAGE_SIZE / NVFS_BLOCK_SIZE)) := by
      have := of_decide_eq_true (hrange 0 (by omega))
      simpa [fprRangeOk] using this
    rw [if_neg hr0]
    have hcb : fprContigChk g (g.nvfs_metadata.getD (bidx + i) default)
        lastPtr = false := by
      rcases hL : lastPtr with _ | kp
      · rfl
      · exact hcont0 kp hL (by omega)
    rw [hcb]
    rw [if_neg (by simp)]
    have hm0 := hstate 0 (by omega)
    simp only [Nat.add_zero] at hm0
    rw [if_neg (by tauto)]
    have hilen : bidx + i < g.nvfs_metadata.length ∨
        (g.nvfs_metadata.getD (bidx + i) default).nvfs_state
          = NvfsIoState.DMA_START := by
      by_cases hl : bidx + i < g.nvfs_metadata.length
      · exact Or.inl hl
      · have hd : g.nvfs_metadata.getD (bidx + i) default = default := by
          rw [List.getD_eq_getElem?_getD, List.getElem?_eq_none (by omega)]
          rfl
        rw [hd] at hm0
        rcases hm0 with hh | hh <;> simp at hh
    set mq : NvfsMeta :=
      { g.nvfs_metadata.getD (bidx + i) default with
        nvfs_state := NvfsIoState.DMA_START } with hmq
    have hpres : ∀ k, (g.nvfs_metadata.set (bidx + i) mq).getD k default
        = if k = bidx + i ∧ bidx + i < g.nvfs_metadata.length then mq
          else g.nvfs_metadata.getD k default := by
      intro k
      by_cases hk : k = bidx + i ∧ bidx + i < g.nvfs_metadata.length
      · rw [if_pos hk, hk.1, getD_set_self _ _ _ hk.2]
      · rw [if_neg hk]
        by_cases hke : k = bidx + i
        · have hge : ¬ bidx + i < g.nvfs_metadata.length := by tauto
          subst hke
          rw [List.getD_eq_getElem?_getD, List.getElem?_eq_none (by simp; omega)]
          rw [List.getD_eq_getElem?_getD, List.getElem?_eq_none (by omega)]
        · exact getD_set_ne _ _ _ _ (Ne.symm hke)
    have hstq : ∀ k, ((g.nvfs_metadata.set (bidx + i) mq).getD k
        default).nvfs_state = (if k = bidx + i then NvfsIoState.DMA_START
          else (g.nvfs_metadata.getD k default).nvfs_state) := by
      intro k
      rw [hpres k]
      by_cases hke : k = bidx + i
      · rcases hilen with hl | hl
        · rw [if_pos ⟨hke, hl⟩, if_pos hke, hmq]
        · by_cases hll : bidx + i < g.nvfs_metadata.length
          · rw [if_pos ⟨hke, hll⟩, if_pos hke, hmq]
          · rw [if_neg (by tauto), if_pos hke, hke, hl]
      · rw [if_neg (by tauto), if_neg hke]
    have hfolio : ∀ k, ((g.nvfs_metadata.set (bidx + i) mq).getD k
        default).folio = (g.nvfs_metadata.getD k default).folio := by
      intro k
      rw [hpres k]
      by_cases hk : k = bidx + i ∧ bidx + i < g.nvfs_metadata.length
      · rw [if_pos hk, hk.1, hmq]
      · rw [if_neg hk]
    have hfoff : ∀ k, ((g.nvfs_metadata.set (bidx + i) mq).getD k
        default).folio_offset
        = (g.nvfs_metadata.getD k default).folio_offset := by
      intro k
      rw [hpres k]
      by_cases hk : k = bidx + i ∧ bidx + i < g.nvfs_metadata.length
      · rw [if_pos hk, hk.1, hmq]
      · rw [if_neg hk]
    have hcsame : ∀ k kp, fprContiguityBad
        ((g.nvfs_metadata.set (bidx + i) mq).getD k default)
        ((g.nvfs_metadata.set (bidx + i) mq).getD kp default)
        = fprContiguityBad (g.nvfs_metadata.getD k default)
          (g.nvfs_metadata.getD kp default) := by
      intro k kp
      unfold fprContiguityBad
      rw [hfolio k, hfolio kp, hfoff k, hfoff kp]
    obtain ⟨g2, e1, e2, e3, e4⟩ := ih fidx bidx nblocks (i + 1)
      { g with nvfs_metadata := g.nvfs_metadata.set (bidx + i) mq }
      (some (bidx + i))
      (fun t ht => by
        rw [show i + 1 + t = i + (t + 1) by omega]
        exact hrange (t + 1) (by omega))
      (fun t ht => by
        dsimp only
        rw [show bidx + (i + 1) + t = bidx + i + (t + 1) by omega, hstq]
        rw [if_neg (by omega)]
        exact hstate (t + 1) (by omega))
      (fun kp hkp hf => by
        dsimp only
        cases hkp
        rw [hcsame]
        rw [show bidx + (i + 1) = bidx + i + 1 by omega]
        have := hcont 1 (by omega) (by omega)
        simpa using this)
      (fun t ht1 ht2 => by
        dsimp only
        rw [hcsame]
        rw [show bidx + (i + 1) + t = bidx + i + (t + 1) by omega]
        exact hcont (t + 1) (by omega) (by omega))
    dsimp only at e1 e2 e3 e4
    refine ⟨g2, e1, e2, ?_, ?_⟩
    · intro t ht
      cases t with
      | zero =>
        simp only [Nat.add_zero]
        rw [e4 (bidx + i) (by omega), hstq]
        rw [if_pos rfl]
      | succ t' =>
        rw [show bidx + i + (t' + 1) = bidx + (i + 1) + t' by omega]
        exact e3 t' (by omega)
    · intro k hk
      rw [e4 k (by omega), hpres k, if_neg (by omega)]

theorem fprLoop_err : ∀ (fuel : Nat) (fidx bidx nblocks i : Nat)
    (g : NvfsMgroup) (lastPtr : Option Nat) (t0 : Nat),
    t0 < fuel →
    bidx + i + t0 < g.nvfs_metadata.length →
    (∀ t, t ≤ t0 → fprRangeOk fidx g (i + t) = true) →
    (∀ t, t < t0 →
      (g.nvfs_metadata.getD (bidx + i + t) default).nvfs_state
        = NvfsIoState.QUEUED
      ∨ (g.nvfs_metadata.getD (bidx + i + t) default).nvfs_state
        = NvfsIoState.DMA_START) →
    (∀ kp, lastPtr = some kp →
      fprContiguityBad (g.nvfs_metadata.getD (bidx + i) default)
        (g.nvfs_metadata.getD kp default) = false) →
    (∀ t, 0 < t → t ≤ t0 →
      fprContiguityBad (g.nvfs_metadata.getD (bidx + i + t) default)
        (g.nvfs_metadata.getD (bidx + i + t - 1) default) = false) →
    (g.nvfs_metadata.getD (bidx + i + t0) default).nvfs_state
      ≠ NvfsIoState.QUEUED →
    (g.nvfs_metadata.getD (bidx + i + t0) default).nvfs_state
      ≠ NvfsIoState.DMA_START →
    ∃ g', fprLoop fidx bidx nblocks g lastPtr i fuel = FprOut.err (some g')
      ∧ g'.ref = g.ref - 1
      ∧ (g'.nvfs_metadata.getD (bidx + i + t0) default).nvfs_state
          = NvfsIoState.DMA_ERROR
      ∧ (∀ t, t < t0 →
          (g'.nvfs_metadata.getD (bidx + i + t) default).nvfs_state
            = NvfsIoState.DMA_START)
      ∧ (∀ k, k < bidx + i ∨ bidx + i + t0 < k →
          g'.nvfs_metadata.getD k default
            = g.nvfs_metadata.getD k default) := by
  intro fuel
  induction fuel with
  | zero => intro fidx bidx nblocks i g lastPtr t0 h0; omega
  | succ f ih =>
    intro fidx bidx nblocks i g lastPtr t0 ht0 hklen hrange hstate hcont0
      hcont hbad1 hbad2
    rw [fprLoop]
    dsimp only
    have hr0 : ¬((fidx + i / (PAGE_SIZE / NVFS_BLOCK_SIZE))
        % NVFS_MAX_SHADOW_PAGES
        > g.nvfsio.nvfs_active_blocks_end / (PAGE_SIZE / NVFS_BLOCK_SIZE)) := by
      have := of_decide_eq_true (hrange 0 (by omega))
      simpa [fprRangeOk] using this
    rw [if_neg hr0]
    have hcb : fprContigChk g (g.nvfs_metadata.getD (bidx + i) default)
        lastPtr = false := by
      rcases hL : lastPtr with _ | kp
      · rfl
      · exact hcont0 kp hL
    rw [hcb]
    rw [if_neg (by simp)]
    cases t0 with
    | zero =>
      simp only [Nat.add_zero] at hbad1 hbad2 hklen
      rw [if_pos ⟨hbad1, hbad2⟩]
      refine ⟨_, rfl, rfl, ?_, fun t ht => by omega, ?_⟩
      · dsimp only
        simp only [Nat.add_zero]
        rw [getD_set_self _ _ _ hklen]
      · intro k hk
        dsimp only
        rw [getD_set_ne _ _ _ _ (by omega)]
    | succ t0' =>
      have hm0 := hstate 0 (by omega)
      simp only [Nat.add_zero] at hm0
      rw [if_neg (by tauto)]
      have hilen : bidx + i < g.nvfs_metadata.length := by omega
      set mq : NvfsMeta :=
        { g.nvfs_metadata.getD (bidx + i) default with
          nvfs_state := NvfsIoState.DMA_START } with hmq
      have hpres : ∀ k, k ≠ bidx + i →
          (g.nvfs_metadata.set (bidx + i) mq).getD k default
            = g.nvfs_metadata.getD k default :=
        fun k hk => getD_set_ne _ _ _ _ (Ne.symm hk)
      have hfolio : ∀ k, ((g.nvfs_metadata.set (bidx + i) mq).getD k
          default).folio = (g.nvfs_metadata.getD k default).folio := by
        intro k
        by_cases hk : k = bidx + i
        · subst hk
          rw [getD_set_self _ _ _ hilen, hmq]
        · rw [hpres k hk]
      have hfoff : ∀ k, ((g.nvfs_metadata.set (bidx + i) mq).getD k
          default).folio_offset
          = (g.nvfs_metadata.getD k default).folio_offset := by
        intro k
        by_cases hk : k = bidx + i
        · subst hk
          rw [getD_set_self _ _ _ hilen, hmq]
        · rw [hpres k hk]
      have hcsame : ∀ k kp, fprContiguityBad
          ((g.nvfs_metadata.set (bidx + i) mq).getD k default)
          ((g.nvfs_metadata.set (bidx + i) mq).getD kp default)
          = fprContiguityBad (g.nvfs_metadata.getD k default)
            (g.nvfs_metadata.getD kp default) := by
        intro k kp
        unfold fprContiguityBad
        rw [hfolio k, hfolio kp, hfoff k, hfoff kp]
      obtain ⟨g', e1, e2, e3, e4, e5⟩ := ih fidx bidx nblocks (i + 1)
        { g with nvfs_metadata := g.nvfs_metadata.set (bidx + i) mq }
        (some (bidx + i)) t0'
        (by omega)
        (by
          dsimp only
          rw [show bidx + (i + 1) + t0' = bidx + i + (t0' + 1) by omega]
          simpa using hklen)
        (fun t ht => by
          rw [show i + 1 + t = i + (t + 1) by omega]
          exact hrange (t + 1) (by omega))
        (fun t ht => by
          dsimp only
          rw [show bidx + (i + 1) + t = bidx + i + (t + 1) by omega]
          rw [hpres _ (by omega)]
          exact hstate (t + 1) (by omega))
        (fun kp hkp => by
          dsimp only
          cases hkp
          rw [hcsame]
          rw [show bidx + (i + 1) = bidx + i + 1 by omega]
          have := hcont 1 (by omega) (by omega)
          simpa using this)
        (fun t ht1 ht2 => by
          dsimp only
          rw [hcsame]
          rw [show bidx + (i + 1) + t = bidx + i + (t + 1) by omega]
          exact hcont (t + 1) (by omega) (by omega))
        (by
          dsimp only
          rw [show bidx + (i + 1) + t0' = bidx + i + (t0' + 1) by omega]
          rw [hpres _ (by omega)]
          exact hbad1)
        (by
          dsimp only
          rw [show bidx + (i + 1) + t0' = bidx + i + (t0' + 1) by omega]
          rw [hpres _ (by omega)]
          exact hbad2)
      dsimp only at e1 e2 e3 e4 e5
      refine ⟨g', e1, by rw [e2], ?_, ?_, ?_⟩
      · rw [show bidx + i + (t0' + 1) = bidx + (i + 1) + t0' by omega]
        exact e3
      · intro t ht
        cases t with
        | zero =>
          simp only [Nat.add_zero]
          rw [e5 (bidx + i) (by omega), getD_set_self _ _ _ hilen, hmq]
        | succ t' =>
          rw [show bidx + i + (t' + 1) = bidx + (i + 1) + t' by omega]
          exact e4 t' (by omega)
      · intro k hk
        rw [e5 k (by omega), hpres k (by omega)]

/-- C7: the DMA-advance operations.  For
`nvfs_mgroup_metadata_set_dma_state_folio` (translated block range
`[i, i + n)`): when every covered block is QUEUED or already DMA_START the
call returns 0, keeps the group reference and leaves every covered block
in DMA_START; when a first unexpected block `k0` is hit, the call returns
`-EIO`, drops a group reference, marks block `k0` DMA_ERROR and the blocks
verified before it DMA_START.  For `nvfs_mgroup_from_page_range`
(translated block range `[bidx, bidx + nblocks)` after a successful
lookup, which took a reference): under passing range and contiguity
checks, when every covered block is QUEUED or DMA_START the call succeeds
with the reference kept and every covered block DMA_START; when the block
at offset `t0` is in an unexpected state, the call returns `ERR_PTR`, the
reference taken by the lookup is dropped and that block is marked
DMA_ERROR, the blocks before it DMA_START. -/
theorem c7_dma_advance :
    (∀ (folio : NvfsFolio) (g : NvfsMgroup) (bv_len bv_offset i n : Nat),
      i = (folio.index % NVFS_MAX_SHADOW_PAGES) * (PAGE_SIZE / NVFS_BLOCK_SIZE)
        + METADATA_BLOCK_START_INDEX bv_offset →
      n = METADATA_BLOCK_END_INDEX bv_offset bv_len + 1
        - METADATA_BLOCK_START_INDEX bv_offset →
      (∀ k, i ≤ k → k < i + n →
        (g.nvfs_metadata.getD k default).nvfs_state = NvfsIoState.QUEUED
        ∨ (g.nvfs_metadata.getD k default).nvfs_state
          = NvfsIoState.DMA_START) →
      (nvfs_mgroup_metadata_set_dma_state_folio folio g bv_len bv_offset).1 = 0
      ∧ (nvfs_mgroup_metadata_set_dma_state_folio folio g bv_len
          bv_offset).2.ref = g.ref
      ∧ (∀ k, i ≤ k → k < i + n →
          (((nvfs_mgroup_metadata_set_dma_state_folio folio g bv_len
            bv_offset).2.nvfs_metadata.getD k default)).nvfs_state
            = NvfsIoState.DMA_START))
    ∧ (∀ (folio : NvfsFolio) (g : NvfsMgroup) (bv_len bv_offset i n k0 : Nat),
      i = (folio.index % NVFS_MAX_SHADOW_PAGES) * (PAGE_SIZE / NVFS_BLOCK_SIZE)
        + METADATA_BLOCK_START_INDEX bv_offset →
      n = METADATA_BLOCK_END_INDEX bv_offset bv_len + 1
        - METADATA_BLOCK_START_INDEX bv_offset →
      i ≤ k0 → k0 < i + n → k0 < g.nvfs_metadata.length →
      (∀ k, i ≤ k → k < k0 →
        (g.nvfs_metadata.getD k default).nvfs_state = NvfsIoState.QUEUED
        ∨ (g.nvfs_metadata.getD k default).nvfs_state
          = NvfsIoState.DMA_START) →
      (g.nvfs_metadata.getD k0 default).nvfs_state ≠ NvfsIoState.QUEUED →
      (g.nvfs_metadata.getD k0 default).nvfs_state ≠ NvfsIoState.DMA_START →
      (nvfs_mgroup_metadata_set_dma_state_folio folio g bv_len bv_offset).1
        = cEIO
      ∧ (nvfs_mgroup_metadata_set_dma_state_folio folio g bv_len
          bv_offset).2.ref = g.ref - 1
      ∧ (((nvfs_mgroup_metadata_set_dma_state_folio folio g bv_len
          bv_offset).2.nvfs_metadata.getD k0 default)).nvfs_state
          = NvfsIoState.DMA_ERROR
      ∧ (∀ k, i ≤ k → k < k0 →
          (((nvfs_mgroup_metadata_set_dma_state_folio folio g bv_len
            bv_offset).2.nvfs_metadata.getD k default)).nvfs_state
            = NvfsIoState.DMA_START))
    ∧ (∀ (reg : List NvfsMgroup) (folio : NvfsFolio)
        (nblocks start_offset : Nat) (g : NvfsMgroup) (bidx : Nat),
      nvfs_mgroup_from_folio_internal reg folio false = FolioLookup.found g →
      bidx = (folio.index % NVFS_MAX_SHADOW_PAGES)
          * (PAGE_SIZE / NVFS_BLOCK_SIZE)
        + start_offset / NVFS_BLOCK_SIZE →
      (∀ t, t < nblocks → fprRangeOk folio.index g t = true) →
      (∀ t, t < nblocks →
        (g.nvfs_metadata.getD (bidx + t) default).nvfs_state
          = NvfsIoState.QUEUED
        ∨ (g.nvfs_metadata.getD (bidx + t) default).nvfs_state
          = NvfsIoState.DMA_START) →
      (∀ t, 0 < t → t < nblocks →
        fprContiguityBad (g.nvfs_metadata.getD (bidx + t) default)
          (g.nvfs_metadata.getD (bidx + t - 1) default) = false) →
      fprIsOk (nvfs_mgroup_from_page_range reg folio nblocks start_offset)
        = true
      ∧ (fprGrp (nvfs_mgroup_from_page_range reg folio nblocks
          start_offset)).map (fun x => x.ref) = some g.ref
      ∧ (∀ t, t < nblocks →
          (fprGrp (nvfs_mgroup_from_page_range reg folio nblocks
            start_offset)).map
            (fun x => (x.nvfs_metadata.getD (bidx + t) default).nvfs_state)
            = some NvfsIoState.DMA_START))
    ∧ (∀ (reg : List NvfsMgroup) (folio : NvfsFolio)
        (nblocks start_offset : Nat) (g : NvfsMgroup) (bidx t0 : Nat),
      nvfs_mgroup_from_folio_internal reg folio false = FolioLookup.found g →
      bidx = (folio.index % NVFS_MAX_SHADOW_PAGES)
          * (PAGE_SIZE / NVFS_BLOCK_SIZE)
        + start_offset / NVFS_BLOCK_SIZE →
      t0 < nblocks → bidx + t0 < g.nvfs_metadata.length →
      (∀ t, t ≤ t0 → fprRangeOk folio.index g t = true) →
      (∀ t, t < t0 →
        (g.nvfs_metadata.getD (bidx + t) default).nvfs_state
          = NvfsIoState.QUEUED
        ∨ (g.nvfs_metadata.getD (bidx + t) default).nvfs_state
          = NvfsIoState.DMA_START) →
      (∀ t, 0 < t → t ≤ t0 →
        fprContiguityBad (g.nvfs_metadata.getD (bidx + t) default)
          (g.nvfs_metadata.getD (bidx + t - 1) default) = false) →
      (g.nvfs_metadata.getD (bidx + t0) default).nvfs_state
        ≠ NvfsIoState.QUEUED →
      (g.nvfs_metadata.getD (bidx + t0) default).nvfs_state
        ≠ NvfsIoState.DMA_START →
      fprIsErr (nvfs_mgroup_from_page_range reg folio nblocks start_offset)
        = true
      ∧ (fprGrp (nvfs_mgroup_from_page_range reg folio nblocks
          start_offset)).map (fun x => x.ref) = some (g.ref - 1)
      ∧ (fprGrp (nvfs_mgroup_from_page_range reg folio nblocks
          start_offset)).map
          (fun x => (x.nvfs_metadata.getD (bidx + t0) default).nvfs_state)
          = some NvfsIoState.DMA_ERROR
      ∧ (∀ t, t < t0 →
          (fprGrp (nvfs_mgroup_from_page_range reg folio nblocks
            start_offset)).map
            (fun x => (x.nvfs_metadata.getD (bidx + t) default).nvfs_state)
            = some NvfsIoState.DMA_START)) := by
  refine ⟨?_, ?_, ?_, ?_⟩
  · intro folio g bv_len bv_offset i n hi hn hst
    subst hi hn
    obtain ⟨h1, h2, h3, _⟩ := setDmaLoop_ok
      (METADATA_BLOCK_END_INDEX bv_offset bv_len + 1
        - METADATA_BLOCK_START_INDEX bv_offset)
      ((folio.index % NVFS_MAX_SHADOW_PAGES) * (PAGE_SIZE / NVFS_BLOCK_SIZE)
        + METADATA_BLOCK_START_INDEX bv_offset) g hst
    exact ⟨h1, h2, h3⟩
  · intro folio g bv_len bv_offset i n k0 hi hn hk1 hk2 hklen hgood hb1 hb2
    subst hi hn
    obtain ⟨h1, h2, h3, h4, _⟩ := setDmaLoop_err
      (METADATA_BLOCK_END_INDEX bv_offset bv_len + 1
        - METADATA_BLOCK_START_INDEX bv_offset)
      ((folio.index % NVFS_MAX_SHADOW_PAGES) * (PAGE_SIZE / NVFS_BLOCK_SIZE)
        + METADATA_BLOCK_START_INDEX bv_offset) g k0 hk1 hk2 hklen hgood hb1 hb2
    exact ⟨h1, h2, h3, h4⟩
  · intro reg folio nblocks start_offset g bidx hfind hbidx hR hS hC
    subst hbidx
    obtain ⟨g2, e1, e2, e3, _⟩ := fprLoop_ok nblocks folio.index
      ((folio.index % NVFS_MAX_SHADOW_PAGES) * (PAGE_SIZE / NVFS_BLOCK_SIZE)
        + start_offset / NVFS_BLOCK_SIZE) nblocks 0 g none
      (fun t ht => by simpa using hR t ht)
      (fun t ht => by simpa using hS t ht)
      (fun kp hkp _ => Option.noConfusion hkp)
      (fun t ht1 ht2 => by simpa using hC t ht1 ht2)
    have hres : nvfs_mgroup_from_page_range reg folio nblocks start_offset
        = FprOut.ok g2 := by
      unfold nvfs_mgroup_from_page_range
      rw [hfind]
      exact e1
    rw [hres]
    refine ⟨rfl, by simp [fprGrp, e2], ?_⟩
    intro t ht
    have := e3 t ht
    simp only [Nat.zero_add, Nat.add_zero] at this
    rw [List.getD_eq_getElem?_getD] at this
    simp [fprGrp, this]
  · intro reg folio nblocks start_offset g bidx t0 hfind hbidx ht0 hklen
      hR hS hC hb1 hb2
    subst hbidx
    obtain ⟨g', e1, e2, e3, e4, _⟩ := fprLoop_err nblocks folio.index
      ((folio.index % NVFS_MAX_SHADOW_PAGES) * (PAGE_SIZE / NVFS_BLOCK_SIZE)
        + start_offset / NVFS_BLOCK_SIZE) nblocks 0 g none t0 ht0
      (by simpa using hklen)
      (fun t ht => by simpa using hR t ht)
      (fun t ht => by simpa using hS t ht)
      (fun kp hkp => Option.noConfusion hkp)
      (fun t ht1 ht2 => by simpa using hC t ht1 ht2)
      (by simpa using hb1)
      (by simpa using hb2)
    have hres : nvfs_mgroup_from_page_range reg folio nblocks start_offset
        = FprOut.err (some g') := by
      unfold nvfs_mgroup_from_page_range
      rw [hfind]
      exact e1
    rw [hres]
    refine ⟨rfl, by simp [fprGrp, e2], ?_, ?_⟩
    · have := e3
      simp only [Nat.zero_add, Nat.add_zero] at this
      rw [List.getD_eq_getElem?_getD] at this
      simp [fprGrp, this]
    · intro t ht
      have := e4 t ht
      simp only [Nat.zero_add, Nat.add_zero] at this
      rw [List.getD_eq_getElem?_getD] at this
      simp [fprGrp, this]

theorem c7_dma_advance_witness :
    (nvfs_mgroup_metadata_set_dma_state_folio egFolio0 egQueued16 8192 0).1 = 0
    ∧ (nvfs_mgroup_metadata_set_dma_state_folio egFolio0 egQueued16 8192
        0).2.ref = egQueued16.ref
    ∧ ((nvfs_mgroup_metadata_set_dma_state_folio egFolio0 egQueued16 8192
        0).2.nvfs_metadata.getD 0 default).nvfs_state = NvfsIoState.DMA_START
    ∧ (nvfs_mgroup_metadata_set_dma_state_folio egFolio0 egBadBlock2 16384
        0).1 = cEIO
    ∧ (nvfs_mgroup_metadata_set_dma_state_folio egFolio0 egBadBlock2 16384
        0).2.ref = egBadBlock2.ref - 1
    ∧ ((nvfs_mgroup_metadata_set_dma_state_folio egFolio0 egBadBlock2 16384
        0).2.nvfs_metadata.getD 2 default).nvfs_state = NvfsIoState.DMA_ERROR
    ∧ fprIsOk (nvfs_mgroup_from_page_range [egQueued16] egFolio0 2 0) = true
    ∧ (fprGrp (nvfs_mgroup_from_page_range [egQueued16] egFolio0 2 0)).map
        (fun x => x.ref) = some egFoundQ16.ref
    ∧ (fprGrp (nvfs_mgroup_from_page_range [egQueued16] egFolio0 2 0)).map
        (fun x => (x.nvfs_metadata.getD (0 + 0) default).nvfs_state)
        = some NvfsIoState.DMA_START
    ∧ fprIsErr (nvfs_mgroup_from_page_range [egBadBlock2] egFolio0 4 0) = true
    ∧ (fprGrp (nvfs_mgroup_from_page_range [egBadBlock2] egFolio0 4 0)).map
        (fun x => x.ref) = some (egFoundBad.ref - 1)
    ∧ (fprGrp (nvfs_mgroup_from_page_range [egBadBlock2] egFolio0 4 0)).map
        (fun x => (x.nvfs_metadata.getD (0 + 2) default).nvfs_state)
        = some NvfsIoState.DMA_ERROR := by
  have h1 := c7_dma_advance.1 egFolio0 egQueued16 8192 0 0 2 (by decide)
    (by decide) (fun k hk1 hk2 => by interval_cases k <;> decide)
  have h2 := c7_dma_advance.2.1 egFolio0 egBadBlock2 16384 0 0 4 2 (by decide)
    (by decide) (by omega) (by omega) (by decide)
    (fun k hk1 hk2 => by interval_cases k <;> decide) (by decide) (by decide)
  have h3 := c7_dma_advance.2.2.1 [egQueued16] egFolio0 2 0 egFoundQ16 0
    (by decide) (by decide)
    (fun t ht => by interval_cases t <;> decide)
    (fun t ht => by interval_cases t <;> decide)
    (fun t ht1 ht2 => by interval_cases t <;> decide)
  have h4 := c7_dma_advance.2.2.2 [egBadBlock2] egFolio0 4 0 egFoundBad 0 2
    (by decide) (by decide) (by omega) (by decide)
    (fun t ht => by interval_cases t <;> decide)
    (fun t ht => by interval_cases t <;> decide)
    (fun t ht1 ht2 => by interval_cases t <;> decide)
    (by decide) (by decide)
  exact ⟨h1.1, h1.2.1, h1.2.2 0 (by omega) (by omega), h2.1, h2.2.1, h2.2.2.1,
    h3.1, h3.2.1, h3.2.2 0 (by omega), h4.1, h4.2.1, h4.2.2.1⟩

theorem getD_default_of_ge (l : List NvfsMeta) (k : Nat) (h : l.length ≤ k) :
    l.getD k default = default := by
  rw [List.getD_eq_getElem?_getD, List.getElem?_eq_none (by omega)]
  rfl

theorem setDmaLoop_dma_source : ∀ (fuel i : Nat) (g : NvfsMgroup) (k : Nat),
    (((setDmaLoop g i fuel).2.nvfs_metadata.getD k default).nvfs_state
      = NvfsIoState.DMA_START) →
    (g.nvfs_metadata.getD k default).nvfs_state = NvfsIoState.QUEUED
    ∨ (g.nvfs_metadata.getD k default).nvfs_state = NvfsIoState.DMA_START := by
  intro fuel
  induction fuel with
  | zero => intro i g k h; exact Or.inr h
  | succ f ih =>
    intro i g k h
    rw [setDmaLoop] at h
    dsimp only at h
    by_cases hbad : (g.nvfs_metadata.getD i default).nvfs_state
        ≠ NvfsIoState.QUEUED
        ∧ (g.nvfs_metadata.getD i default).nvfs_state
          ≠ NvfsIoState.DMA_START
    · rw [if_pos hbad] at h
      dsimp only at h
      by_cases hk : k = i ∧ i < g.nvfs_metadata.length
      · rw [hk.1, getD_set_self _ _ _ hk.2] at h
        exact absurd h (by simp)
      · by_cases hke : k = i
        · have hge : ¬ i < g.nvfs_metadata.length := by tauto
          subst hke
          rw [getD_default_of_ge _ _ (by simp; omega)] at h
          exact absurd h (by decide)
        · rw [getD_set_ne _ _ _ _ (Ne.symm hke)] at h
          exact Or.inr h
    · rw [if_neg hbad] at h
      by_cases hq : (g.nvfs_metadata.getD i default).nvfs_state
          = NvfsIoState.QUEUED
      · rw [if_pos hq] at h
        have hilen : i < g.nvfs_metadata.length := by
          by_contra hge
          rw [getD_default_of_ge _ _ (by omega)] at hq
          exact absurd hq (by decide)
        set mq : NvfsMeta :=
          { g.nvfs_metadata.getD i default with
            nvfs_state := NvfsIoState.DMA_START } with hmq
        have hrec := ih (i + 1)
          { g with nvfs_metadata := g.nvfs_metadata.set i mq } k h
        dsimp only at hrec
        by_cases hke : k = i
        · subst hke
          exact Or.inl hq
        · rw [getD_set_ne _ _ _ _ (Ne.symm hke)] at hrec
          exact hrec
      · rw [if_neg hq] at h
        exact ih (i + 1) g k h

theorem fprLoop_dma_source : ∀ (fuel fidx bidx nblocks i : Nat)
    (g : NvfsMgroup) (lastPtr : Option Nat) (g2 : NvfsMgroup) (k : Nat),
    fprGrp (fprLoop fidx bidx nblocks g lastPtr i fuel) = some g2 →
    (g2.nvfs_metadata.getD k default).nvfs_state = NvfsIoState.DMA_START →
    (g.nvfs_metadata.getD k default).nvfs_state = NvfsIoState.QUEUED
    ∨ (g.nvfs_metadata.getD k default).nvfs_state = NvfsIoState.DMA_START := by
  intro fuel
  induction fuel with
  | zero =>
    intro fidx bidx nblocks i g lastPtr g2 k hg h
    simp only [fprLoop, fprGrp, Option.some.injEq] at hg
    subst hg
    exact Or.inr h
  | succ f ih =>
    intro fidx bidx nblocks i g lastPtr g2 k hg h
    rw [fprLoop] at hg
    dsimp only at hg
    by_cases hr : (fidx + i / (PAGE_SIZE / NVFS_BLOCK_SIZE))
        % NVFS_MAX_SHADOW_PAGES
        > g.nvfsio.nvfs_active_blocks_end / (PAGE_SIZE / NVFS_BLOCK_SIZE)
    · rw [if_pos hr] at hg
      rcases hL : lastPtr with _ | kp
      · rw [hL] at hg
        simp only [fprGrp, Option.some.injEq] at hg
        subst hg
        exact Or.inr h
      · rw [hL] at hg
        simp only [fprGrp, Option.some.injEq] at hg
        subst hg
        dsimp only at h
        by_cases hk : k = kp ∧ kp < g.nvfs_metadata.length
        · rw [hk.1, getD_set_self _ _ _ hk.2] at h
          exact absurd h (by simp)
        · by_cases hke : k = kp
          · have hge : ¬ kp < g.nvfs_metadata.length := by tauto
            subst hke
            rw [getD_default_of_ge _ _ (by simp; omega)] at h
            exact absurd h (by decide)
          · rw [getD_set_ne _ _ _ _ (Ne.symm hke)] at h
            exact Or.inr h
    · rw [if_neg hr] at hg
      by_cases hcb : fprContigChk g (g.nvfs_metadata.getD (bidx + i) default)
          lastPtr = true
      · rw [if_pos hcb] at hg
        simp only [fprGrp, Option.some.injEq] at hg
        subst hg
        dsimp only at h
        by_cases hk : k = bidx + i ∧ bidx + i < g.nvfs_metadata.length
        · rw [hk.1, getD_set_self _ _ _ hk.2] at h
          exact absurd h (by simp)
        · by_cases hke : k = bidx + i
          · have hge : ¬ bidx + i < g.nvfs_metadata.length := by tauto
            subst hke
            rw [getD_default_of_ge _ _ (by simp; omega)] at h
            exact absurd h (by decide)
          · rw [getD_set_ne _ _ _ _ (Ne.symm hke)] at h
            exact Or.inr h
      · rw [if_neg hcb] at hg
        by_cases hbad : (g.nvfs_metadata.getD (bidx + i) default).nvfs_state
            ≠ NvfsIoState.QUEUED
            ∧ (g.nvfs_metadata.getD (bidx + i) default).nvfs_state
              ≠ NvfsIoState.DMA_START
        · rw [if_pos hbad] at hg
          simp only [fprGrp, Option.some.injEq] at hg
          subst hg
          dsimp only at h
          by_cases hk : k = bidx + i ∧ bidx + i < g.nvfs_metadata.length
          · rw [hk.1, getD_set_self _ _ _ hk.2] at h
            exact absurd h (by simp)
          · by_cases hke : k = bidx + i
            · have hge : ¬ bidx + i < g.nvfs_metadata.length := by tauto
              subst hke
              rw [getD_default_of_ge _ _ (by simp; omega)] at h
              exact absurd h (by decide)
            · rw [getD_set_ne _ _ _ _ (Ne.symm hke)] at h
              exact Or.inr h
        · rw [if_neg hbad] at hg
          have hmi : (g.nvfs_metadata.getD (bidx + i) default).nvfs_state
              = NvfsIoState.QUEUED
              ∨ (g.nvfs_metadata.getD (bidx + i) default).nvfs_state
                = NvfsIoState.DMA_START := by tauto
          set mq : NvfsMeta :=
            { g.nvfs_metadata.getD (bidx + i) default with
              nvfs_state := NvfsIoState.DMA_START } with hmq
          have hrec := ih fidx bidx nblocks (i + 1)
            { g with nvfs_metadata := g.nvfs_metadata.set (bidx + i) mq }
            (some (bidx + i)) g2 k hg h
          dsimp only at hrec
          by_cases hke : k = bidx + i
          · subst hke
            exact hmi
          · rw [getD_set_ne _ _ _ _ (Ne.symm hke)] at hrec
            exact hrec

theorem fill_mpages_bug_spec (g : NvfsMgroup) (nr : Nat)
    (h : (nvfs_mgroup_fill_mpages g nr).1 = FillRes.bug) :
    ∃ b, fillChecks g nr = some b
    ∧ (nvfs_mgroup_fill_mpages g nr).2.nvfs_metadata
      = (if g.nvfsio.gpu_page_offset ≠ 0 then
          initStateRange g.nvfs_metadata 0 b else g.nvfs_metadata) := by
  unfold nvfs_mgroup_fill_mpages at h ⊢
  dsimp only at h ⊢
  by_cases h1 : nr > g.nvfs_blocks_count
  · rw [if_pos h1] at h; simp at h
  · rw [if_neg h1] at h ⊢
    rcases hc : fillChecks g nr with _ | b
    · rw [hc] at h; simp at h
    · rw [hc] at h
      dsimp only at h ⊢
      rcases hq : queueStateRange g.nvfs_folios
          (if g.nvfsio.gpu_page_offset ≠ 0 then
            initStateRange g.nvfs_metadata 0 b else g.nvfs_metadata) b nr
          with _ | ms1
      · exact ⟨b, rfl, rfl⟩
      · rw [hq] at h; simp at h

/-- C4 (amended): the fill and DMA-advance paths respect the
state-machine discipline — `nvfs_mgroup_fill_mpage` transitions a block to
QUEUED only from INIT or DONE; a block whose state differs after
`nvfs_mgroup_fill_mpages` and is QUEUED was INIT or DONE before; a block
that is DMA_START after `nvfs_mgroup_metadata_set_dma_state_folio` or
after `nvfs_mgroup_from_page_range` was QUEUED or already DMA_START
before.  (`nvfs_mgroup_check_and_set` does NOT respect the discipline: it
applies the target state to every active-range block regardless of its
prior state — see the accompanying counterexample.) -/
theorem c4_state_machine :
    (∀ (page : Nat) (m m' : NvfsMeta),
      nvfs_mgroup_fill_mpage page m = some m' →
      m'.nvfs_state = NvfsIoState.QUEUED
      ∧ (m.nvfs_state = NvfsIoState.INIT ∨ m.nvfs_state = NvfsIoState.DONE))
    ∧ (∀ (g : NvfsMgroup) (nr k : Nat),
      (((nvfs_mgroup_fill_mpages g nr).2.nvfs_metadata.getD k
        default)).nvfs_state = NvfsIoState.QUEUED →
      (g.nvfs_metadata.getD k default).nvfs_state ≠ NvfsIoState.QUEUED →
      (g.nvfs_metadata.getD k default).nvfs_state = NvfsIoState.INIT
      ∨ (g.nvfs_metadata.getD k default).nvfs_state = NvfsIoState.DONE)
    ∧ (∀ (folio : NvfsFolio) (g : NvfsMgroup) (bv_len bv_offset k : Nat),
      (((nvfs_mgroup_metadata_set_dma_state_folio folio g bv_len
        bv_offset).2.nvfs_metadata.getD k default)).nvfs_state
        = NvfsIoState.DMA_START →
      (g.nvfs_metadata.getD k default).nvfs_state = NvfsIoState.QUEUED
      ∨ (g.nvfs_metadata.getD k default).nvfs_state
        = NvfsIoState.DMA_START)
    ∧ (∀ (reg : List NvfsMgroup) (folio : NvfsFolio)
        (nblocks start_offset : Nat) (g : NvfsMgroup) (k : Nat),
      nvfs_mgroup_from_folio_internal reg folio false = FolioLookup.found g →
      (fprGrp (nvfs_mgroup_from_page_range reg folio nblocks
        start_offset)).map
        (fun x => (x.nvfs_metadata.getD k default).nvfs_state)
        = some NvfsIoState.DMA_START →
      (g.nvfs_metadata.getD k default).nvfs_state = NvfsIoState.QUEUED
      ∨ (g.nvfs_metadata.getD k default).nvfs_state
        = NvfsIoState.DMA_START) := by
  refine ⟨?_, ?_, ?_, ?_⟩
  · intro page m m' h
    obtain ⟨hst, hm', _⟩ := fill_mpage_some_facts page m m' h
    exact ⟨by rw [hm'], hst⟩
  · intro g nr k hQ hne
    rcases hres : (nvfs_mgroup_fill_mpages g nr).1 with _ | _ | _
    · obtain ⟨hle, b, ms1, hc, hq, hres2⟩ := fill_mpages_ok_spec g nr hres
      rw [hres2] at hQ
      dsimp only at hQ
      obtain ⟨hqlen, hqout, hqin⟩ := queueStateRange_some nr g.nvfs_folios
        _ b ms1 hq
      have hms0len : (if g.nvfsio.gpu_page_offset ≠ 0 then
          initStateRange g.nvfs_metadata 0 b else g.nvfs_metadata).length
          = g.nvfs_metadata.length := by
        split_ifs
        · rw [initStateRange_length]
        · rfl
      have hbnr : b + nr ≤ g.nvfs_blocks_count := by
        by_cases ho : g.nvfsio.gpu_page_offset ≠ 0
        · exact fillChecks_some_bound g nr b hc ho
        · have hb0 : b = 0 := by
            rw [fillChecks_some_val g nr b hc]
            have : g.nvfsio.gpu_page_offset = 0 := by tauto
            rw [this]
            rfl
          omega
      by_cases hk1 : b ≤ k ∧ k < b + nr
      · obtain ⟨hstOld, _⟩ := hqin k hk1.1 hk1.2
        by_cases ho : g.nvfsio.gpu_page_offset ≠ 0
        · rw [if_pos ho, initStateRange_getD_out _ _ _ _ (by omega)] at hstOld
          exact hstOld
        · rw [if_neg ho] at hstOld
          exact hstOld
      · exfalso
        by_cases hk2 : k < b
        · have ho : g.nvfsio.gpu_page_offset ≠ 0 := by
            intro h0
            have : b = 0 := by
              rw [fillChecks_some_val g nr b hc, h0]
              rfl
            omega
          rw [initStateRange_getD_out _ _ _ _ (by omega)] at hQ
          rw [hqout k (by omega)] at hQ
          rw [if_pos ho] at hQ
          by_cases hkl : k < g.nvfs_metadata.length
          · rw [initStateRange_getD_in _ _ _ _ (by omega) (by omega) hkl] at hQ
            simp at hQ
          · rw [getD_default_of_ge _ _ (by rw [initStateRange_length]; omega)]
              at hQ
            exact absurd hQ (by decide)
        · have hk3 : b + nr ≤ k := by omega
          by_cases hk4 : k < g.nvfs_blocks_count
          · by_cases hkl : k < ms1.length
            · rw [initStateRange_getD_in _ _ _ _ (by omega) (by omega) hkl]
                at hQ
              simp at hQ
            · rw [getD_default_of_ge _ _ (by rw [initStateRange_length]; omega)]
                at hQ
              exact absurd hQ (by decide)
          · rw [initStateRange_getD_out _ _ _ _ (by omega)] at hQ
            rw [hqout k (by omega)] at hQ
            by_cases ho : g.nvfsio.gpu_page_offset ≠ 0
            · rw [if_pos ho, initStateRange_getD_out _ _ _ _ (by omega)] at hQ
              exact hne hQ
            · rw [if_neg ho] at hQ
              exact hne hQ
    · have hEq := fill_mpages_eio_spec g nr hres
      rw [hEq] at hQ
      exact absurd hQ hne
    · obtain ⟨b, hc, hmeta⟩ := fill_mpages_bug_spec g nr hres
      rw [hmeta] at hQ
      by_cases ho : g.nvfsio.gpu_page_offset ≠ 0
      · rw [if_pos ho] at hQ
        by_cases hk2 : k < b
        · exfalso
          by_cases hkl : k < g.nvfs_metadata.length
          · rw [initStateRange_getD_in _ _ _ _ (by omega) (by omega) hkl] at hQ
            simp at hQ
          · rw [getD_default_of_ge _ _ (by rw [initStateRange_length]; omega)]
              at hQ
            exact absurd hQ (by decide)
        · rw [initStateRange_getD_out _ _ _ _ (by omega)] at hQ
          exact absurd hQ hne
      · rw [if_neg ho] at hQ
        exact absurd hQ hne
  · intro folio g bv_len bv_offset k h
    exact setDmaLoop_dma_source
      (METADATA_BLOCK_END_INDEX bv_offset bv_len + 1
        - METADATA_BLOCK_START_INDEX bv_offset)
      ((folio.index % NVFS_MAX_SHADOW_PAGES) * (PAGE_SIZE / NVFS_BLOCK_SIZE)
        + METADATA_BLOCK_START_INDEX bv_offset) g k h
  · intro reg folio nblocks start_offset g k hfind hmap
    rw [Option.map_eq_some'] at hmap
    obtain ⟨g2, hg2, hst⟩ := hmap
    have hloop : fprGrp (fprLoop folio.index
        ((folio.index % NVFS_MAX_SHADOW_PAGES)
          * (PAGE_SIZE / NVFS_BLOCK_SIZE) + start_offset / NVFS_BLOCK_SIZE)
        nblocks g none 0 nblocks) = some g2 := by
      unfold nvfs_mgroup_from_page_range at hg2
      rw [hfind] at hg2
      exact hg2
    exact fprLoop_dma_source nblocks folio.index
      ((folio.index % NVFS_MAX_SHADOW_PAGES) * (PAGE_SIZE / NVFS_BLOCK_SIZE)
        + start_offset / NVFS_BLOCK_SIZE) nblocks 0 g none g2 k hloop hst

theorem c4_state_machine_witness :
    (({ egInit16.nvfs_metadata.getD 0 default with
        nvfs_state := NvfsIoState.QUEUED } : NvfsMeta).nvfs_state
        = NvfsIoState.QUEUED
      ∧ ((egInit16.nvfs_metadata.getD 0 default).nvfs_state
          = NvfsIoState.INIT
        ∨ (egInit16.nvfs_metadata.getD 0 default).nvfs_state
          = NvfsIoState.DONE))
    ∧ ((egOffset8k.nvfs_metadata.getD 2 default).nvfs_state
        = NvfsIoState.INIT
      ∨ (egOffset8k.nvfs_metadata.getD 2 default).nvfs_state
        = NvfsIoState.DONE)
    ∧ ((egQueued16.nvfs_metadata.getD 0 default).nvfs_state
        = NvfsIoState.QUEUED
      ∨ (egQueued16.nvfs_metadata.getD 0 default).nvfs_state
        = NvfsIoState.DMA_START)
    ∧ ((egFoundQ16.nvfs_metadata.getD 0 default).nvfs_state
        = NvfsIoState.QUEUED
      ∨ (egFoundQ16.nvfs_metadata.getD 0 default).nvfs_state
        = NvfsIoState.DMA_START) :=
  ⟨c4_state_machine.1 1000 (egInit16.nvfs_metadata.getD 0 default)
      { egInit16.nvfs_metadata.getD 0 default with
        nvfs_state := NvfsIoState.QUEUED } (by decide),
    c4_state_machine.2.1 egOffset8k 4 2 (by decide) (by decide),
    c4_state_machine.2.2.1 egFolio0 egQueued16 8192 0 0 (by decide),
    c4_state_machine.2.2.2 [egQueued16] egFolio0 2 0 egFoundQ16 0 (by decide)
      (by decide)⟩

/-- C9 (amended): a reverse folio lookup that passes the identity
verification (anonymous folio, region key at least the minimum, registry
hit, folio stored at the computed slot, metadata scan passing) but whose
page range does not intersect the active block range is answered with
`ERR_PTR(-EIO)` — an error — and `nvfs_check_gpu_folio_and_error`
accordingly reports -1 for such a folio, not the claimed
"not currently relevant" result. -/
theorem c9_out_of_range_err (reg : List NvfsMgroup) (folio : NvfsFolio)
    (g : NvfsMgroup) (chk : Bool)
    (hmap : folio.mapping = none)
    (hbase : NVFS_MIN_BASE_INDEX ≤ folio.index >>> NVFS_MAX_SHADOW_PAGES_ORDER)
    (hget : nvfs_mgroup_get reg (folio.index >>> NVFS_MAX_SHADOW_PAGES_ORDER)
      = some g)
    (hidx : folio.index % NVFS_MAX_SHADOW_PAGES < g.nvfs_folios_count
      ∧ g.nvfs_folios.getD (folio.index % NVFS_MAX_SHADOW_PAGES) none
        = some folio)
    (hmeta : folioMetaCheck g folio chk
      ((folio.index % NVFS_MAX_SHADOW_PAGES) * (GPU_PAGE_SIZE / NVFS_BLOCK_SIZE))
      (min ((folio.index % NVFS_MAX_SHADOW_PAGES)
            * (GPU_PAGE_SIZE / NVFS_BLOCK_SIZE)
          + folio.nr_pages * PAGE_SIZE / NVFS_BLOCK_SIZE) g.nvfs_blocks_count
        - (folio.index % NVFS_MAX_SHADOW_PAGES)
            * (GPU_PAGE_SIZE / NVFS_BLOCK_SIZE)) = MetaChk.pass)
    (hrange : g.nvfsio.nvfs_active_blocks_start / (PAGE_SIZE / NVFS_BLOCK_SIZE)
        > folio.index % NVFS_MAX_SHADOW_PAGES + folio.nr_pages - 1
      ∨ g.nvfsio.nvfs_active_blocks_end / (PAGE_SIZE / NVFS_BLOCK_SIZE)
        < folio.index % NVFS_MAX_SHADOW_PAGES) :
    nvfs_mgroup_from_folio_internal reg folio chk = FolioLookup.errPtr cEIO
    ∧ (chk = true → nvfs_check_gpu_folio_and_error reg folio = -1) := by
  have h1 : nvfs_mgroup_from_folio_internal reg folio chk
      = FolioLookup.errPtr cEIO := by
    unfold nvfs_mgroup_from_folio_internal
    dsimp only
    rw [if_neg (by simp [hmap])]
    rw [if_neg (by omega)]
    rw [hget]
    dsimp only
    rw [if_neg (not_not_intro hidx)]
    rw [hmeta]
    dsimp only
    rw [if_pos hrange]
  refine ⟨h1, fun hchk => ?_⟩
  subst hchk
  unfold nvfs_check_gpu_folio_and_error
  rw [h1]

theorem c9_out_of_range_err_witness :
    nvfs_mgroup_from_folio_internal [egActiveHigh] egFolio0 false
      = FolioLookup.errPtr cEIO :=
  (c9_out_of_range_err [egActiveHigh] egFolio0
      { egActiveHigh with ref := egActiveHigh.ref + 1 } false (by decide)
      (by decide) (by decide) (by decide) (by decide) (by decide)).1

theorem c6_queue_blocks_witness :
    ((nvfs_mgroup_fill_mpages egOffset8k 4).2.nvfs_metadata.getD 2
        default).nvfs_state = NvfsIoState.QUEUED
    ∧ ((nvfs_mgroup_fill_mpages egOffset8k 4).2.nvfs_metadata.getD 0
        default).nvfs_state = NvfsIoState.INIT
    ∧ (nvfs_mgroup_fill_mpages egOffset8k
        4).2.nvfsio.nvfs_active_blocks_start = 2
    ∧ (nvfs_mgroup_fill_mpages egOffset8k
        4).2.nvfsio.nvfs_active_blocks_end = 5
    ∧ ((nvfs_mgroup_fill_mpages egOffset8k 4).1 = FillRes.eio
        ↔ fillEioCond egOffset8k 4) := by
  have h := c6_queue_blocks egOffset8k 4 (by decide) (by decide)
  obtain ⟨hst, hsrt, hend⟩ := h.1 (by decide)
  exact ⟨(hst 2 (by decide)).trans (by decide),
    (hst 0 (by decide)).trans (by decide),
    hsrt.trans (by decide),
    hend.trans (by decide), h.2⟩
